import Mathlib

/-!
Verification development for the Collector add-on (`src/collector.py`).

The add-on organizes a scene's cameras and lights into two dedicated
collections ("Cameras" and "Lights"), renames them sequentially, and exposes
a few operators.  We give a shallow embedding of its state and operations:

* `Obj` models a `bpy.types.Object`: an identity (`id(obj)`), a type tag
  (`obj.type`, e.g. "CAMERA"), and a display name.
* `Collection` models a `bpy.types.Collection`: an identity, a name, and the
  identities of the objects linked to it.
* `World` models the mutable state the code touches for one scene:
  `bpy.data.objects`, `bpy.data.collections`, the scene root collection's
  children, `scene.objects` (as identities), the module-global
  `TRACKED_OBJECT_IDS`, the scene's `collector_enable_auto` flag, and a
  fresh-identity counter for newly created collections.
* `Oracle` decides which host link/unlink calls raise `RuntimeError`; the
  code swallows these, which we embed with `Except`-valued primitives and an
  explicit `caught` handler at every `try/except` site of the source.

Host behaviour outside the source is modelled at face value: attribute
assignment `obj.name = s` stores `s`, `scene.objects` and `users_collection`
enumerate in data order, `str.lower` lowercases ASCII letters, and `\d` in
the source's anchored regex means a decimal digit.  Handler registration
bookkeeping, the UI panel, timestamps and the filesystem are not modelled;
the report writer is abstracted by a boolean saying whether the file write
raises.
-/

/-- Obj models one `bpy.types.Object`: `oid` is `id(obj)`, `type` is
`obj.type`, `name` is `obj.name`. -/
structure Obj where
  oid : Nat
  type : String
  name : String
deriving DecidableEq

/-- Collection models one `bpy.types.Collection`: `cid` is its identity,
`name` its (key) name, `objs` the identities of objects linked to it. -/
structure Collection where
  cid : Nat
  name : String
  objs : List Nat
deriving DecidableEq

/-- World models the state of one scene together with the module globals of
`collector.py`. -/
structure World where
  objects : List Obj
  collections : List Collection
  rootChildren : List Nat
  sceneObjIds : List Nat
  trackedIds : List Nat
  autoEnabled : Bool
  nextCid : Nat
deriving DecidableEq

/-- Oracle decides which host link/unlink calls raise `RuntimeError`. -/
structure Oracle where
  childLinkFails : Nat → Bool
  linkFails : Nat → Nat → Bool
  unlinkFails : Nat → Nat → Bool

/-- Oracle.ok makes every host call succeed. -/
def Oracle.ok : Oracle := ⟨fun _ => false, fun _ _ => false, fun _ _ => false⟩

/-- Oracle.allFail makes every fallible host call raise. -/
def Oracle.allFail : Oracle := ⟨fun _ => true, fun _ _ => true, fun _ _ => true⟩

/-- HostErr models a `RuntimeError` raised by a host API call. -/
inductive HostErr
| runtimeError
deriving DecidableEq

/-- TARGET_OBJECT_TYPES from the source: the tracked object types. -/
def TARGET_OBJECT_TYPES : List String := ["CAMERA", "LIGHT"]

/-- CAMERAS_COLLECTION_NAME from the source. -/
def CAMERAS_COLLECTION_NAME : String := "Cameras"

/-- LIGHTS_COLLECTION_NAME from the source. -/
def LIGHTS_COLLECTION_NAME : String := "Lights"

/-- lookupObj finds the object with the given identity in `bpy.data.objects`. -/
def lookupObj (w : World) (oid : Nat) : Option Obj :=
  w.objects.find? (fun o => o.oid == oid)

/-- getCollection models `bpy.data.collections.get(name)`. -/
def getCollection (w : World) (cname : String) : Option Collection :=
  w.collections.find? (fun c => c.name == cname)

/-- usersCids models `obj.users_collection`: the identities of the
collections the object is linked to, in data order. -/
def usersCids (w : World) (oid : Nat) : List Nat :=
  (w.collections.filter (fun c => c.objs.contains oid)).map (fun c => c.cid)

/-- linkObjToCollection is the successful effect of `target.objects.link(obj)`. -/
def linkObjToCollection (w : World) (cid oid : Nat) : World :=
  { w with collections := w.collections.map (fun c =>
      if c.cid = cid then { c with objs := c.objs ++ [oid] } else c) }

/-- unlinkObjFromCollection is the successful effect of `col.objects.unlink(obj)`. -/
def unlinkObjFromCollection (w : World) (cid oid : Nat) : World :=
  { w with collections := w.collections.map (fun c =>
      if c.cid = cid then { c with objs := c.objs.filter (fun x => x ≠ oid) } else c) }

/-- attemptLinkObj models `target.objects.link(obj)`, which may raise. -/
def attemptLinkObj (orc : Oracle) (w : World) (cid oid : Nat) : Except HostErr World :=
  if orc.linkFails cid oid then Except.error HostErr.runtimeError
  else Except.ok (linkObjToCollection w cid oid)

/-- attemptUnlinkObj models `col.objects.unlink(obj)`, which may raise. -/
def attemptUnlinkObj (orc : Oracle) (w : World) (cid oid : Nat) : Except HostErr World :=
  if orc.unlinkFails cid oid then Except.error HostErr.runtimeError
  else Except.ok (unlinkObjFromCollection w cid oid)

/-- attemptLinkChild models `scene.collection.children.link(collection)`,
which may raise. -/
def attemptLinkChild (orc : Oracle) (w : World) (cid : Nat) : Except HostErr World :=
  if orc.childLinkFails cid then Except.error HostErr.runtimeError
  else Except.ok { w with rootChildren := w.rootChildren ++ [cid] }

/-- caught is the `try: ... except RuntimeError: pass` pattern of the source:
on an exception the state `w` from before the call is kept. -/
def caught (w : World) (r : Except HostErr World) : World :=
  match r with
  | Except.ok w' => w'
  | Except.error _ => w

/-- find_or_create_collection embeds the source function of the same name:
get the collection by name, create it when absent, and link it under the
scene root collection when it is not among the root's children (swallowing a
`RuntimeError` from the link).  It returns the collection's identity and the
new state. -/
def find_or_create_collection (orc : Oracle) (w : World) (cname : String) : Nat × World :=
  let found := w.collections.find? (fun c => c.name == cname)
  let cid := match found with
    | some c => c.cid
    | none => w.nextCid
  let w1 := match found with
    | some _ => w
    | none => { w with collections := w.collections ++ [⟨w.nextCid, cname, []⟩],
                       nextCid := w.nextCid + 1 }
  let childNames := w1.rootChildren.filterMap (fun i =>
    (w1.collections.find? (fun c => c.cid == i)).map (fun c => c.name))
  if childNames.contains cname then (cid, w1)
  else (cid, caught w1 (attemptLinkChild orc w1 cid))

/-- move_object_exclusively_to_collection embeds the source function of the
same name: link the object to the target collection when it is not already
there, then unlink it from every other collection it is linked to; each
host call's `RuntimeError` is swallowed. -/
def move_object_exclusively_to_collection (orc : Oracle) (w : World) (oid targetCid : Nat) :
    World :=
  let w1 := if targetCid ∈ usersCids w oid then w
            else caught w (attemptLinkObj orc w targetCid oid)
  (usersCids w1 oid).foldl
    (fun wacc cid =>
      if cid ≠ targetCid then caught wacc (attemptUnlinkObj orc wacc cid oid) else wacc)
    w1

/-- typeNameOf maps a tracked `obj.type` to its display name, as in the
source's conditional expression. -/
def typeNameOf (obj_type : String) : Option String :=
  if obj_type = "CAMERA" then some "Camera"
  else if obj_type = "LIGHT" then some "Light"
  else none

/-- digitChar is the decimal digit character for `n < 10` (and '9' above). -/
def digitChar (n : Nat) : Char :=
  match n with
  | 0 => '0'
  | 1 => '1'
  | 2 => '2'
  | 3 => '3'
  | 4 => '4'
  | 5 => '5'
  | 6 => '6'
  | 7 => '7'
  | 8 => '8'
  | _ => '9'

/-- natDigitsAux prints `n` in decimal, fuelled for structural recursion. -/
def natDigitsAux : Nat → Nat → List Char
  | 0, _ => []
  | fuel + 1, n =>
    if n < 10 then [digitChar n]
    else natDigitsAux fuel (n / 10) ++ [digitChar (n % 10)]

/-- natToStr is Python's `str` on a natural number: its decimal digits. -/
def natToStr (n : Nat) : String :=
  String.mk (natDigitsAux (n + 1) n)

/-- digitVal is the value of a decimal digit character. -/
def digitVal (c : Char) : Nat := c.toNat - 48

/-- digitsVal is Python's `int` on a nonempty string of decimal digits. -/
def digitsVal (cs : List Char) : Nat :=
  cs.foldl (fun acc c => 10 * acc + digitVal c) 0

/-- matchTypeNumber models matching `obj.name` against the source's anchored
regex pattern `^{type_name} (\d+)$` and parsing the captured digits. -/
def matchTypeNumber (type_name : String) (s : String) : Option Nat :=
  let pre := (type_name ++ " ").data
  if pre.isPrefixOf s.data then
    let rest := s.data.drop pre.length
    if rest ≠ [] ∧ rest.all Char.isDigit then some (digitsVal rest) else none
  else none

/-- lowerNat is the sort key of one character: the code point of its
ASCII-lowercased form, modelling Python's `str.lower`. -/
def lowerNat (c : Char) : Nat := c.toLower.toNat

/-- nameKey is the sort key of a name under `key=lambda o: o.name.lower()`. -/
def nameKey (s : String) : List Nat := s.data.map lowerNat

/-- lexLe is lexicographic comparison of key sequences, the order Python uses
to compare strings. -/
def lexLe : List Nat → List Nat → Bool
  | [], _ => true
  | _ :: _, [] => false
  | a :: as, b :: bs =>
    if a < b then true
    else if b < a then false
    else lexLe as bs

/-- nameLe orders objects by the lowercased name, the sort order of
`objs.sort(key=lambda o: o.name.lower())`. -/
def nameLe (a b : Obj) : Prop := lexLe (nameKey a.name) (nameKey b.name) = true

instance : DecidableRel nameLe := fun a b => inferInstanceAs (Decidable (_ = true))

/-- sortByName is the source's stable sort of objects by lowercased name. -/
def sortByName (objs : List Obj) : List Obj := objs.insertionSort nameLe

/-- setName is the effect of `obj.name = n` on `bpy.data.objects`, where the
object is addressed by its identity. -/
def setName (objs : List Obj) (oid : Nat) (n : String) : List Obj :=
  objs.map (fun o => if o.oid = oid then { o with name := n } else o)

/-- assignNames pairs each object of the (sorted) list with its new
sequential name, numbering from `i` as in `enumerate(objs, start=1)`. -/
def assignNames (type_name : String) (i : Nat) : List Obj → List (Nat × String)
  | [] => []
  | o :: rest => (o.oid, type_name ++ " " ++ natToStr i) :: assignNames type_name (i + 1) rest

/-- applyNames performs the assignments of `assignNames` one at a time, as
the source's rename loop does. -/
def applyNames (objs : List Obj) (assigns : List (Nat × String)) : List Obj :=
  assigns.foldl (fun acc p => setName acc p.1 p.2) objs

/-- rename_objects_sequentially_of_type embeds the source function of the
same name: all objects of the given tracked type, sorted by lowercased name,
are renamed to "Camera 1", "Camera 2", ... (resp. "Light ..."); a
non-tracked type argument renames nothing. -/
def rename_objects_sequentially_of_type (w : World) (obj_type : String) : World :=
  match typeNameOf obj_type with
  | none => w
  | some type_name =>
    let objs := sortByName (w.objects.filter (fun o => o.type == obj_type))
    { w with objects := applyNames w.objects (assignNames type_name 1 objs) }

/-- mexAux is the source's `while new_number in numbers: new_number += 1`
loop, fuelled for structural recursion. -/
def mexAux : Nat → Nat → List Nat → Nat
  | 0, k, _ => k
  | fuel + 1, k, ns => if k ∈ ns then mexAux fuel (k + 1) ns else k

/-- lowestUnused runs the source's while loop from 1 with enough fuel. -/
def lowestUnused (ns : List Nat) : Nat := mexAux (ns.length + 1) 1 ns

/-- rename_object_sequentially embeds the source function of the same name:
collect the numbers used by same-type objects whose names match the anchored
pattern, and give the object the lowest unused number from 1. -/
def rename_object_sequentially (w : World) (oid : Nat) : World :=
  match lookupObj w oid with
  | none => w
  | some obj =>
    match typeNameOf obj.type with
    | none => w
    | some type_name =>
      let numbers := (w.objects.filter (fun o => o.type == obj.type)).filterMap
        (fun o => matchTypeNumber type_name o.name)
      let new_number := lowestUnused numbers
      { w with objects := setName w.objects oid (type_name ++ " " ++ natToStr new_number) }

/-- moveByType is the body of the source's per-object dispatch: cameras go to
the Cameras collection, lights to the Lights collection, other objects are
left alone. -/
def moveByType (orc : Oracle) (camCid lightCid : Nat) (w : World) (oid : Nat) : World :=
  match lookupObj w oid with
  | some o =>
    if o.type = "CAMERA" then move_object_exclusively_to_collection orc w oid camCid
    else if o.type = "LIGHT" then move_object_exclusively_to_collection orc w oid lightCid
    else w
  | none => w

/-- organize_scene_objects embeds the source function of the same name. -/
def organize_scene_objects (orc : Oracle) (w : World) : World :=
  let p1 := find_or_create_collection orc w CAMERAS_COLLECTION_NAME
  let p2 := find_or_create_collection orc p1.2 LIGHTS_COLLECTION_NAME
  let w3 := rename_objects_sequentially_of_type p2.2 "CAMERA"
  let w4 := rename_objects_sequentially_of_type w3 "LIGHT"
  w4.sceneObjIds.foldl (moveByType orc p1.1 p2.1) w4

/-- rebuild_tracked_ids embeds the source function of the same name:
TRACKED_OBJECT_IDS becomes the identities of the scene's tracked objects. -/
def rebuild_tracked_ids (w : World) : World :=
  { w with trackedIds := w.sceneObjIds.filter (fun i =>
      match lookupObj w i with
      | some o => TARGET_OBJECT_TYPES.contains o.type
      | none => false) }

/-- newObjectIds is the source's `new_objects` selection: identities of
scene objects of a tracked type not yet in TRACKED_OBJECT_IDS. -/
def newObjectIds (w : World) : List Nat :=
  w.sceneObjIds.filter (fun i =>
    match lookupObj w i with
    | some o => TARGET_OBJECT_TYPES.contains o.type && !(w.trackedIds.contains i)
    | none => false)

/-- organizeNewFold is the source's per-new-object loop: rename the object
with the lowest unused number, then move it to its type's collection. -/
def organizeNewFold (orc : Oracle) (camCid lightCid : Nat) (ids : List Nat) (w : World) :
    World :=
  ids.foldl (fun wacc i => moveByType orc camCid lightCid (rename_object_sequentially wacc i) i) w

/-- organize_new_objects embeds the source function of the same name: each
scene object of a tracked type whose identity is not in TRACKED_OBJECT_IDS
is renamed with the lowest unused number and moved to its collection, then
the cache is rebuilt. -/
def organize_new_objects (orc : Oracle) (w : World) : World :=
  let p1 := find_or_create_collection orc w CAMERAS_COLLECTION_NAME
  let p2 := find_or_create_collection orc p1.2 LIGHTS_COLLECTION_NAME
  let w2 := p2.2
  rebuild_tracked_ids (organizeNewFold orc p1.1 p2.1 (newObjectIds w2) w2)

/-- is_auto_enabled embeds the source function of the same name: `none`
models an absent scene. -/
def is_auto_enabled : Option World → Bool
  | none => false
  | some s => s.autoEnabled

/-- handle_load_post embeds the load handler: when auto-organization is
enabled for the present scene it organizes the scene and rebuilds the cache,
otherwise it does nothing. -/
def handle_load_post (orc : Oracle) (ctx : Option World) : Option World :=
  match ctx with
  | none => none
  | some scene =>
    if is_auto_enabled (some scene) then
      some (rebuild_tracked_ids (organize_scene_objects orc scene))
    else some scene

/-- handle_depsgraph_update embeds the depsgraph handler: when the scene is
absent or the toggle is off it returns immediately, otherwise it organizes
the newly detected objects. -/
def handle_depsgraph_update (orc : Oracle) (ctx : Option World) : Option World :=
  match ctx with
  | none => none
  | some scene =>
    if is_auto_enabled (some scene) then some (organize_new_objects orc scene)
    else some scene

/-- OpResult models the status set a Blender operator returns. -/
inductive OpResult
| FINISHED
| CANCELLED
deriving DecidableEq

/-- write_collection_report builds the report lines for one collection, as
the inner helper of the export operator does. -/
def write_collection_report (w : World) (col_name : String) : List String :=
  match getCollection w col_name with
  | none => ["Collection '" ++ col_name ++ "' not found.\n"]
  | some col =>
    ("Collection '" ++ col_name ++ "':")
      :: (col.objs.filterMap (fun i =>
            (lookupObj w i).map (fun o => "  - " ++ o.name ++ " (Type: " ++ o.type ++ ")")))
      ++ [""]

/-- export_report_execute embeds `OBJECT_OT_collector_export_report.execute`:
the report body is assembled, and the file write either succeeds (INFO,
FINISHED, file holds the joined lines) or raises (ERROR, CANCELLED, no
file); `writeFails` abstracts whether `open`/`write` raises. -/
def export_report_execute (writeFails : Bool) (w : World) : OpResult × String × Option String :=
  let report_lines := write_collection_report w CAMERAS_COLLECTION_NAME
    ++ write_collection_report w LIGHTS_COLLECTION_NAME
  if writeFails then (OpResult.CANCELLED, "ERROR", none)
  else (OpResult.FINISHED, "INFO", some (String.intercalate "\n" report_lines))

/-- CameraCtx models the context of the set-active-camera operator: the
scene's active camera, the context object, and whether some 3D view was
switched into the camera view. -/
structure CameraCtx where
  sceneCamera : Option Nat
  ctxObj : Option Obj
  viewSwitched : Bool
deriving DecidableEq

/-- set_active_camera_execute embeds
`OBJECT_OT_collector_set_active_camera.execute`: with no context object or a
non-camera it warns and cancels; with a camera it sets the scene's active
camera, tries to switch a 3D view (`canSwitchView` abstracts whether any
view could be switched, all exceptions being swallowed), and finishes. -/
def set_active_camera_execute (canSwitchView : Bool) (c : CameraCtx) : OpResult × CameraCtx :=
  match c.ctxObj with
  | none => (OpResult.CANCELLED, c)
  | some obj =>
    if obj.type ≠ "CAMERA" then (OpResult.CANCELLED, c)
    else (OpResult.FINISHED,
      { c with sceneCamera := some obj.oid, viewSwitched := canSwitchView })

/-- World.WF collects the host invariants the embedding relies on: object
identities are distinct, collection identities are distinct and below the
fresh counter, and the scene's object list has no duplicates and refers to
existing objects. -/
def World.WF (w : World) : Prop :=
  (w.objects.map Obj.oid).Nodup ∧
  (w.collections.map Collection.cid).Nodup ∧
  (∀ c ∈ w.collections, c.cid < w.nextCid) ∧
  w.sceneObjIds.Nodup ∧
  (∀ i ∈ w.sceneObjIds, ∃ o ∈ w.objects, o.oid = i)

instance (w : World) : Decidable w.WF := by
  unfold World.WF
  infer_instance

/-! ### Order lemmas for the sort key -/

theorem lexLe_total : ∀ xs ys : List Nat, lexLe xs ys = true ∨ lexLe ys xs = true := by
  intro xs
  induction xs with
  | nil => intro ys; left; rfl
  | cons a as ih =>
    intro ys
    cases ys with
    | nil => right; rfl
    | cons b bs =>
      simp only [lexLe]
      rcases Nat.lt_trichotomy a b with h | h | h
      · left; simp [h]
      · subst h
        rcases ih bs with h' | h'
        · left; simp [Nat.lt_irrefl, h']
        · right; simp [Nat.lt_irrefl, h']
      · right; simp [h]

theorem lexLe_trans :
    ∀ xs ys zs : List Nat, lexLe xs ys = true → lexLe ys zs = true → lexLe xs zs = true := by
  intro xs
  induction xs with
  | nil => intro ys zs _ _; rfl
  | cons a as ih =>
    intro ys zs h1 h2
    cases ys with
    | nil => simp [lexLe] at h1
    | cons b bs =>
      cases zs with
      | nil => simp [lexLe] at h2
      | cons c cs =>
        simp only [lexLe] at h1 h2 ⊢
        rcases Nat.lt_trichotomy a b with hab | hab | hab
        · rcases Nat.lt_trichotomy b c with hbc | hbc | hbc
          · simp [show a < c by omega]
          · subst hbc; simp [hab]
          · exfalso; simp [show ¬ b < c by omega, show c < b by omega] at h2
        · subst hab
          rcases Nat.lt_trichotomy a c with hac | hac | hac
          · simp [hac]
          · subst hac
            simp only [Nat.lt_irrefl, if_false] at h1 h2 ⊢
            exact ih bs cs h1 h2
          · exfalso; simp [show ¬ a < c by omega, show c < a by omega] at h2
        · exfalso; simp [show ¬ a < b by omega, show b < a by omega] at h1

theorem lexLe_antisymm :
    ∀ xs ys : List Nat, lexLe xs ys = true → lexLe ys xs = true → xs = ys := by
  intro xs
  induction xs with
  | nil =>
    intro ys _ h2
    cases ys with
    | nil => rfl
    | cons b bs => simp [lexLe] at h2
  | cons a as ih =>
    intro ys h1 h2
    cases ys with
    | nil => simp [lexLe] at h1
    | cons b bs =>
      simp only [lexLe] at h1 h2
      rcases Nat.lt_trichotomy a b with hab | hab | hab
      · exfalso; simp [show ¬ b < a by omega, hab] at h2
      · subst hab
        simp only [Nat.lt_irrefl, if_false] at h1 h2
        rw [ih bs h1 h2]
      · exfalso; simp [show ¬ a < b by omega, hab] at h1

instance : IsTotal Obj nameLe := ⟨fun a b => lexLe_total _ _⟩

instance : IsTrans Obj nameLe := ⟨fun _ _ _ => lexLe_trans _ _ _⟩

theorem sortByName_perm (l : List Obj) : List.Perm (sortByName l) l :=
  List.perm_insertionSort nameLe l

theorem sortByName_sorted (l : List Obj) : List.Sorted nameLe (sortByName l) :=
  List.sorted_insertionSort nameLe l

/-! ### The lowest-unused-number loop -/

theorem filter_succ_length_lt {k : Nat} {ns : List Nat} (hk : k ∈ ns) :
    (ns.filter (fun x => k + 1 ≤ x)).length < (ns.filter (fun x => k ≤ x)).length := by
  induction ns with
  | nil => cases hk
  | cons a as ih =>
    rcases List.mem_cons.mp hk with hka | ha
    · subst hka
      have hsub : (as.filter (fun x => k + 1 ≤ x)).length ≤
          (as.filter (fun x => k ≤ x)).length :=
        (List.monotone_filter_right as (fun x hx => by
          simp only [decide_eq_true_eq] at hx ⊢; omega)).length_le
      simp only [List.filter_cons, decide_eq_true_eq]
      rw [if_neg (by omega), if_pos (Nat.le_refl k)]
      simpa using Nat.lt_succ_of_le hsub
    · simp only [List.filter_cons, decide_eq_true_eq]
      by_cases h1 : k + 1 ≤ a
      · rw [if_pos h1, if_pos (by omega)]
        simpa using ih ha
      · by_cases h2 : k ≤ a
        · rw [if_neg h1, if_pos h2]
          have := ih ha
          simp only [List.length_cons]
          omega
        · rw [if_neg h1, if_neg h2]
          exact ih ha

theorem mexAux_spec :
    ∀ fuel k ns, (ns.filter (fun x => k ≤ x)).length < fuel →
      mexAux fuel k ns ∉ ns ∧ k ≤ mexAux fuel k ns ∧
        ∀ j, k ≤ j → j < mexAux fuel k ns → j ∈ ns := by
  intro fuel
  induction fuel with
  | zero => intro k ns h; omega
  | succ f ih =>
    intro k ns h
    by_cases hk : k ∈ ns
    · have hlen : (ns.filter (fun x => k + 1 ≤ x)).length < f :=
        Nat.lt_of_lt_of_le (filter_succ_length_lt hk) (Nat.le_of_lt_succ h)
      have hrec := ih (k + 1) ns hlen
      have hstep : mexAux (f + 1) k ns = mexAux f (k + 1) ns := by
        simp [mexAux, hk]
      refine ⟨hstep ▸ hrec.1, by rw [hstep]; omega, ?_⟩
      intro j hj hjlt
      rw [hstep] at hjlt
      by_cases hjk : j = k
      · exact hjk ▸ hk
      · exact hrec.2.2 j (by omega) hjlt
    · have hstep : mexAux (f + 1) k ns = k := by simp [mexAux, hk]
      rw [hstep]
      exact ⟨hk, Nat.le_refl k, fun j hj hjlt => by omega⟩

theorem lowestUnused_spec (ns : List Nat) :
    lowestUnused ns ∉ ns ∧ 1 ≤ lowestUnused ns ∧
      ∀ j, 1 ≤ j → j < lowestUnused ns → j ∈ ns := by
  have h : (ns.filter (fun x => 1 ≤ x)).length < ns.length + 1 :=
    Nat.lt_succ_of_le (List.length_filter_le _ ns)
  exact mexAux_spec (ns.length + 1) 1 ns h

/-! ### Lemmas about the sequential rename of a whole type -/

theorem lookup_mem_nodup (objs : List Obj) (hnd : (objs.map Obj.oid).Nodup)
    {o : Obj} (ho : o ∈ objs) : objs.find? (fun x => x.oid == o.oid) = some o := by
  induction objs with
  | nil => cases ho
  | cons a rest ih =>
    rcases List.mem_cons.mp ho with rfl | hmem
    · simp [List.find?]
    · have hne : a.oid ≠ o.oid := by
        intro he
        have : a.oid ∈ rest.map Obj.oid := he ▸ List.mem_map_of_mem Obj.oid hmem
        exact (List.nodup_cons.mp hnd).1 this
      have hstep : (a.oid == o.oid) = false := beq_eq_false_iff_ne.mpr hne
      simp only [List.find?, hstep]
      exact ih (List.nodup_cons.mp hnd).2 hmem

theorem mem_oid_inj {objs : List Obj} (hnd : (objs.map Obj.oid).Nodup)
    {o o' : Obj} (ho : o ∈ objs) (ho' : o' ∈ objs) (h : o.oid = o'.oid) : o = o' := by
  have h1 := lookup_mem_nodup objs hnd ho
  have h2 := lookup_mem_nodup objs hnd ho'
  rw [h] at h1
  rw [h1] at h2
  exact Option.some_injective _ h2

theorem applyNames_eq_map (assigns : List (Nat × String)) (objs : List Obj)
    (h : (assigns.map Prod.fst).Nodup) :
    applyNames objs assigns = objs.map (fun o =>
      match assigns.find? (fun p => p.1 == o.oid) with
      | some p => { o with name := p.2 }
      | none => o) := by
  induction assigns generalizing objs with
  | nil =>
    simp only [applyNames, List.foldl_nil, List.find?]
    exact (List.map_id objs).symm
  | cons p rest ih =>
    have hk : p.1 ∉ rest.map Prod.fst := (List.nodup_cons.mp h).1
    have hnd' : (rest.map Prod.fst).Nodup := (List.nodup_cons.mp h).2
    show applyNames (setName objs p.1 p.2) rest = _
    rw [ih (setName objs p.1 p.2) hnd']
    unfold setName
    rw [List.map_map]
    apply List.map_congr_left
    intro o _
    by_cases hoid : o.oid = p.1
    · have hbeq : (p.1 == o.oid) = true := beq_iff_eq.mpr hoid.symm
      have hnone : rest.find? (fun q => q.1 == o.oid) = none := by
        rw [List.find?_eq_none]
        intro q hq
        have hqp : q.1 ≠ p.1 := by
          intro he
          exact hk (he ▸ List.mem_map_of_mem Prod.fst hq)
        simp only [beq_iff_eq]
        exact fun hc => hqp (hc.trans hoid)
      simp only [Function.comp, List.find?, hbeq, if_pos hoid]
      simp [hnone]
    · have hbeq : (p.1 == o.oid) = false := beq_eq_false_iff_ne.mpr (fun hc => hoid hc.symm)
      simp only [Function.comp, List.find?, hbeq, if_neg hoid]

theorem assignNames_map_fst (T : String) :
    ∀ (i : Nat) (l : List Obj), (assignNames T i l).map Prod.fst = l.map Obj.oid := by
  intro i l
  induction l generalizing i with
  | nil => rfl
  | cons o rest ih => simp [assignNames, ih]

theorem assignNames_find? (T : String) (l : List Obj) (hnd : (l.map Obj.oid).Nodup) :
    ∀ (i j : Nat) (hj : j < l.length),
      (assignNames T i l).find? (fun p => p.1 == (l.get ⟨j, hj⟩).oid) =
        some ((l.get ⟨j, hj⟩).oid, T ++ " " ++ natToStr (i + j)) := by
  induction l with
  | nil => intro i j hj; exact absurd hj (by simp)
  | cons o rest ih =>
    intro i j hj
    cases j with
    | zero => simp [assignNames, List.find?]
    | succ j' =>
      have hj' : j' < rest.length := by simpa using Nat.lt_of_succ_lt_succ hj
      have hget : (o :: rest).get ⟨j' + 1, hj⟩ = rest.get ⟨j', hj'⟩ := rfl
      have hmem : rest.get ⟨j', hj'⟩ ∈ rest := rest.get_mem j' hj'
      have hne : o.oid ≠ (rest.get ⟨j', hj'⟩).oid := by
        intro he
        exact (List.nodup_cons.mp hnd).1 (he ▸ List.mem_map_of_mem Obj.oid hmem)
      have hbeq : (o.oid == (rest.get ⟨j', hj'⟩).oid) = false := beq_eq_false_iff_ne.mpr hne
      rw [hget]
      simp only [assignNames, List.find?, hbeq]
      have harith : i + (j' + 1) = (i + 1) + j' := by omega
      rw [harith]
      exact ih (List.nodup_cons.mp hnd).2 (i + 1) j' hj'

theorem sortByName_oid_nodup {objs : List Obj} (hnd : (objs.map Obj.oid).Nodup)
    (t : String) :
    ((sortByName (objs.filter (fun o => o.type == t))).map Obj.oid).Nodup := by
  have hsub : List.Sublist ((objs.filter (fun o => o.type == t)).map Obj.oid)
      (objs.map Obj.oid) :=
    (List.filter_sublist objs).map Obj.oid
  have hfil : ((objs.filter (fun o => o.type == t)).map Obj.oid).Nodup := hnd.sublist hsub
  have hperm := (sortByName_perm (objs.filter (fun o => o.type == t))).map Obj.oid
  exact hperm.nodup_iff.mpr hfil

/-- renameUpdate is the per-object effect of the whole-type rename pass:
objects at position `j` of the sorted list of type-`t` objects get the name
numbered `j + 1`, all others keep theirs. -/
def renameUpdate (T : String) (s : List Obj) (o : Obj) : Obj :=
  match (assignNames T 1 s).find? (fun p => p.1 == o.oid) with
  | some p => { o with name := p.2 }
  | none => o

theorem rename_of_type_objects (w : World) (t T : String) (ht : typeNameOf t = some T)
    (hnd : (w.objects.map Obj.oid).Nodup) :
    (rename_objects_sequentially_of_type w t).objects =
      w.objects.map (renameUpdate T (sortByName (w.objects.filter (fun o => o.type == t)))) := by
  unfold rename_objects_sequentially_of_type
  rw [ht]
  show applyNames w.objects _ = _
  rw [applyNames_eq_map _ _ (by rw [assignNames_map_fst]; exact sortByName_oid_nodup hnd t)]
  rfl

theorem rename_of_type_frame (w : World) (t : String) :
    (rename_objects_sequentially_of_type w t).collections = w.collections ∧
    (rename_objects_sequentially_of_type w t).rootChildren = w.rootChildren ∧
    (rename_objects_sequentially_of_type w t).sceneObjIds = w.sceneObjIds ∧
    (rename_objects_sequentially_of_type w t).trackedIds = w.trackedIds ∧
    (rename_objects_sequentially_of_type w t).autoEnabled = w.autoEnabled ∧
    (rename_objects_sequentially_of_type w t).nextCid = w.nextCid := by
  unfold rename_objects_sequentially_of_type
  cases typeNameOf t <;> exact ⟨rfl, rfl, rfl, rfl, rfl, rfl⟩

theorem find?_oid_map {f : Obj → Obj} (hf : ∀ o, (f o).oid = o.oid) :
    ∀ (objs : List Obj) (i : Nat),
      (objs.map f).find? (fun o => o.oid == i) =
        (objs.find? (fun o => o.oid == i)).map f := by
  intro objs i
  induction objs with
  | nil => rfl
  | cons a rest ih =>
    simp only [List.map_cons, List.find?, hf a]
    cases h : (a.oid == i)
    · simpa [h] using ih
    · rfl

theorem renameUpdate_oid (T : String) (s : List Obj) (o : Obj) :
    (renameUpdate T s o).oid = o.oid := by
  unfold renameUpdate
  cases (assignNames T 1 s).find? (fun p => p.1 == o.oid) <;> rfl

theorem renameUpdate_type (T : String) (s : List Obj) (o : Obj) :
    (renameUpdate T s o).type = o.type := by
  unfold renameUpdate
  cases (assignNames T 1 s).find? (fun p => p.1 == o.oid) <;> rfl

theorem rename_of_type_lookup (w : World) (t T : String) (ht : typeNameOf t = some T)
    (hnd : (w.objects.map Obj.oid).Nodup) (i : Nat) :
    lookupObj (rename_objects_sequentially_of_type w t) i =
      (lookupObj w i).map
        (renameUpdate T (sortByName (w.objects.filter (fun o => o.type == t)))) := by
  unfold lookupObj
  rw [rename_of_type_objects w t T ht hnd]
  exact find?_oid_map (renameUpdate_oid T _) w.objects i

theorem rename_of_type_get (w : World) (t T : String) (ht : typeNameOf t = some T)
    (hnd : (w.objects.map Obj.oid).Nodup) (j : Nat)
    (hj : j < (sortByName (w.objects.filter (fun o => o.type == t))).length) :
    lookupObj (rename_objects_sequentially_of_type w t)
        ((sortByName (w.objects.filter (fun o => o.type == t))).get ⟨j, hj⟩).oid =
      some { (sortByName (w.objects.filter (fun o => o.type == t))).get ⟨j, hj⟩ with
             name := T ++ " " ++ natToStr (j + 1) } := by
  have hmem_s : (sortByName (w.objects.filter (fun o => o.type == t))).get ⟨j, hj⟩ ∈
      sortByName (w.objects.filter (fun o => o.type == t)) := List.get_mem _ j hj
  have hmem_f : (sortByName (w.objects.filter (fun o => o.type == t))).get ⟨j, hj⟩ ∈
      w.objects.filter (fun o => o.type == t) :=
    (sortByName_perm _).mem_iff.mp hmem_s
  have hmem_o : (sortByName (w.objects.filter (fun o => o.type == t))).get ⟨j, hj⟩ ∈
      w.objects := List.mem_of_mem_filter hmem_f
  rw [rename_of_type_lookup w t T ht hnd]
  unfold lookupObj
  rw [lookup_mem_nodup w.objects hnd hmem_o]
  simp only [Option.map_some']
  unfold renameUpdate
  rw [assignNames_find? T _ (sortByName_oid_nodup hnd t) 1 j hj]
  rw [Nat.add_comm 1 j]

theorem rename_of_type_other (w : World) (t T : String) (ht : typeNameOf t = some T)
    (hnd : (w.objects.map Obj.oid).Nodup) (o : Obj) (ho : o ∈ w.objects)
    (hty : o.type ≠ t) :
    lookupObj (rename_objects_sequentially_of_type w t) o.oid = some o := by
  rw [rename_of_type_lookup w t T ht hnd]
  unfold lookupObj
  rw [lookup_mem_nodup w.objects hnd ho]
  simp only [Option.map_some']
  congr 1
  unfold renameUpdate
  have hnone : (assignNames T 1 (sortByName (w.objects.filter (fun x => x.type == t)))).find?
      (fun p => p.1 == o.oid) = none := by
    rw [List.find?_eq_none]
    intro q hq
    simp only [beq_iff_eq]
    intro hqo
    have hq1 : q.1 ∈ (assignNames T 1
        (sortByName (w.objects.filter (fun x => x.type == t)))).map Prod.fst :=
      List.mem_map_of_mem Prod.fst hq
    rw [assignNames_map_fst] at hq1
    have hq2 : q.1 ∈ (w.objects.filter (fun x => x.type == t)).map Obj.oid :=
      ((sortByName_perm _).map Obj.oid).mem_iff.mp hq1
    rcases List.mem_map.mp hq2 with ⟨o', ho', hoid⟩
    have ho'_obj : o' ∈ w.objects := List.mem_of_mem_filter ho'
    have ho'_ty : o'.type = t := by
      have := List.of_mem_filter ho'
      simpa using this
    have : o = o' := mem_oid_inj hnd ho ho'_obj (by rw [← hqo, hoid])
    exact hty (this ▸ ho'_ty)
  rw [hnone]

/-- C4: `rename_objects_sequentially_of_type`, for a tracked type with N
objects, renames all N objects of that type to "T 1" .. "T N" in the order
given by the stable sort of their prior names lowercased (the sorted list is
sorted under `nameLe` and is a permutation of the type's objects), leaves
every object of any other type unchanged, and for a non-tracked type
argument renames nothing. -/
theorem C4_rename_of_type_correct (w : World) (t T : String)
    (ht : typeNameOf t = some T) (hnd : (w.objects.map Obj.oid).Nodup) :
    (List.Sorted nameLe (sortByName (w.objects.filter (fun o => o.type == t))) ∧
      List.Perm (sortByName (w.objects.filter (fun o => o.type == t)))
        (w.objects.filter (fun o => o.type == t))) ∧
    (∀ (j : Nat) (hj : j < (sortByName (w.objects.filter (fun o => o.type == t))).length),
      lookupObj (rename_objects_sequentially_of_type w t)
          ((sortByName (w.objects.filter (fun o => o.type == t))).get ⟨j, hj⟩).oid =
        some { (sortByName (w.objects.filter (fun o => o.type == t))).get ⟨j, hj⟩ with
               name := T ++ " " ++ natToStr (j + 1) }) ∧
    (∀ o ∈ w.objects, o.type ≠ t →
      lookupObj (rename_objects_sequentially_of_type w t) o.oid = some o) ∧
    (∀ t', typeNameOf t' = none → rename_objects_sequentially_of_type w t' = w) := by
  refine ⟨⟨sortByName_sorted _, sortByName_perm _⟩, ?_, ?_, ?_⟩
  · intro j hj
    exact rename_of_type_get w t T ht hnd j hj
  · intro o ho hty
    exact rename_of_type_other w t T ht hnd o ho hty
  · intro t' ht'
    unfold rename_objects_sequentially_of_type
    rw [ht']

/-! ### Lemmas about the single-object rename -/

theorem setName_find? (objs : List Obj) (oid : Nat) (n : String) (i : Nat) :
    (setName objs oid n).find? (fun o => o.oid == i) =
      (objs.find? (fun o => o.oid == i)).map
        (fun o => if o.oid = oid then { o with name := n } else o) :=
  find?_oid_map (fun o => by by_cases h : o.oid = oid <;> simp [h]) objs i

theorem rename_single_frame (w : World) (oid : Nat) :
    (rename_object_sequentially w oid).collections = w.collections ∧
    (rename_object_sequentially w oid).rootChildren = w.rootChildren ∧
    (rename_object_sequentially w oid).sceneObjIds = w.sceneObjIds ∧
    (rename_object_sequentially w oid).trackedIds = w.trackedIds ∧
    (rename_object_sequentially w oid).autoEnabled = w.autoEnabled ∧
    (rename_object_sequentially w oid).nextCid = w.nextCid := by
  unfold rename_object_sequentially
  refine ⟨?_, ?_, ?_, ?_, ?_, ?_⟩ <;>
    (split
     · rfl
     · split
       · rfl
       · rfl)

theorem rename_single_lookup_ne (w : World) (j i : Nat) (hne : i ≠ j) :
    lookupObj (rename_object_sequentially w j) i = lookupObj w i := by
  unfold rename_object_sequentially
  split
  · rfl
  · split
    · rfl
    · unfold lookupObj
      rw [setName_find?]
      cases hfind : w.objects.find? (fun o => o.oid == i) with
      | none => rfl
      | some o =>
        have hp := List.find?_some hfind
        have hoi : o.oid = i := by simpa using hp
        simp only [Option.map_some']
        rw [if_neg (fun hc => hne (hoi ▸ hc))]

/-- C3: `rename_object_sequentially` on an object of a tracked type gives it
the name "T k" where k is the lowest positive integer such that no object of
the same type (the renamed object included) already carries a name matching
the anchored pattern "T number" with number k; every positive number below k
is carried by some such object. -/
theorem C3_rename_single_lowest_unused (w : World) (oid : Nat) (obj : Obj) (T : String)
    (hnd : (w.objects.map Obj.oid).Nodup)
    (hobj : lookupObj w oid = some obj) (ht : typeNameOf obj.type = some T) :
    ∃ k : Nat,
      lookupObj (rename_object_sequentially w oid) oid =
          some { obj with name := T ++ " " ++ natToStr k } ∧
      1 ≤ k ∧
      ¬ (∃ o ∈ w.objects, o.type = obj.type ∧ matchTypeNumber T o.name = some k) ∧
      (∀ j, 1 ≤ j → j < k →
        ∃ o ∈ w.objects, o.type = obj.type ∧ matchTypeNumber T o.name = some j) := by
  have hmain : rename_object_sequentially w oid =
      { w with objects := setName w.objects oid (T ++ " " ++ natToStr (lowestUnused
        ((w.objects.filter (fun o => o.type == obj.type)).filterMap
          (fun o => matchTypeNumber T o.name)))) } := by
    unfold rename_object_sequentially
    simp only [hobj, ht]
  set numbers := (w.objects.filter (fun o => o.type == obj.type)).filterMap
    (fun o => matchTypeNumber T o.name) with hnumbers
  have hmemnum : ∀ m, m ∈ numbers ↔
      ∃ o ∈ w.objects, o.type = obj.type ∧ matchTypeNumber T o.name = some m := by
    intro m
    rw [hnumbers, List.mem_filterMap]
    constructor
    · rintro ⟨o, ho, hmatch⟩
      exact ⟨o, List.mem_of_mem_filter ho,
        beq_iff_eq.mp (by simpa using List.of_mem_filter ho), hmatch⟩
    · rintro ⟨o, ho, hty, hmatch⟩
      exact ⟨o, List.mem_filter.mpr ⟨ho, beq_iff_eq.mpr hty⟩, hmatch⟩
  have hspec := lowestUnused_spec numbers
  refine ⟨lowestUnused numbers, ?_, hspec.2.1, ?_, ?_⟩
  · rw [hmain]
    unfold lookupObj
    rw [setName_find?]
    show ((w.objects.find? (fun o => o.oid == oid)).map _) = _
    rw [show w.objects.find? (fun o => o.oid == oid) = some obj from hobj]
    have hfind : w.objects.find? (fun o => o.oid == oid) = some obj := hobj
    have hoid : obj.oid = oid := by simpa using List.find?_some hfind
    simp only [Option.map_some']
    rw [if_pos hoid]
  · intro hc
    exact hspec.1 ((hmemnum (lowestUnused numbers)).mpr hc)
  · intro j hj1 hjk
    exact (hmemnum j).mp (hspec.2.2 j hj1 hjk)

/-! ### Frame lemmas for collection moves -/

/-- SameButCollections says two worlds agree on everything except possibly
the collections' contents. -/
def SameButCollections (w w' : World) : Prop :=
  w'.objects = w.objects ∧ w'.rootChildren = w.rootChildren ∧
  w'.sceneObjIds = w.sceneObjIds ∧ w'.trackedIds = w.trackedIds ∧
  w'.autoEnabled = w.autoEnabled ∧ w'.nextCid = w.nextCid

theorem sameButCollections_refl (w : World) : SameButCollections w w :=
  ⟨rfl, rfl, rfl, rfl, rfl, rfl⟩

theorem sameButCollections_trans {w1 w2 w3 : World}
    (h1 : SameButCollections w1 w2) (h2 : SameButCollections w2 w3) :
    SameButCollections w1 w3 := by
  obtain ⟨a1, b1, c1, d1, e1, f1⟩ := h1
  obtain ⟨a2, b2, c2, d2, e2, f2⟩ := h2
  exact ⟨a2.trans a1, b2.trans b1, c2.trans c1, d2.trans d1, e2.trans e1, f2.trans f1⟩

theorem sameButCollections_linkObj (w : World) (cid oid : Nat) :
    SameButCollections w (linkObjToCollection w cid oid) :=
  ⟨rfl, rfl, rfl, rfl, rfl, rfl⟩

theorem sameButCollections_unlinkObj (w : World) (cid oid : Nat) :
    SameButCollections w (unlinkObjFromCollection w cid oid) :=
  ⟨rfl, rfl, rfl, rfl, rfl, rfl⟩

theorem sameButCollections_caught_link (orc : Oracle) (w : World) (cid oid : Nat) :
    SameButCollections w (caught w (attemptLinkObj orc w cid oid)) := by
  unfold attemptLinkObj
  by_cases h : orc.linkFails cid oid
  · rw [if_pos h]; exact sameButCollections_refl w
  · rw [if_neg h]; exact sameButCollections_linkObj w cid oid

theorem sameButCollections_caught_unlink (orc : Oracle) (w : World) (cid oid : Nat) :
    SameButCollections w (caught w (attemptUnlinkObj orc w cid oid)) := by
  unfold attemptUnlinkObj
  by_cases h : orc.unlinkFails cid oid
  · rw [if_pos h]; exact sameButCollections_refl w
  · rw [if_neg h]; exact sameButCollections_unlinkObj w cid oid

theorem sameButCollections_unlink_fold (orc : Oracle) (oid targetCid : Nat) :
    ∀ (l : List Nat) (wacc : World),
      SameButCollections wacc
        (l.foldl (fun wa cid =>
          if cid ≠ targetCid then caught wa (attemptUnlinkObj orc wa cid oid) else wa) wacc) := by
  intro l
  induction l with
  | nil => intro wacc; exact sameButCollections_refl wacc
  | cons c rest ih =>
    intro wacc
    simp only [List.foldl_cons]
    by_cases hc : c ≠ targetCid
    · rw [if_pos hc]
      exact sameButCollections_trans (sameButCollections_caught_unlink orc wacc c oid)
        (ih (caught wacc (attemptUnlinkObj orc wacc c oid)))
    · rw [if_neg hc]
      exact ih wacc

theorem move_sameButCollections (orc : Oracle) (w : World) (oid targetCid : Nat) :
    SameButCollections w (move_object_exclusively_to_collection orc w oid targetCid) := by
  unfold move_object_exclusively_to_collection
  split
  · exact sameButCollections_unlink_fold orc oid targetCid _ w
  · exact sameButCollections_trans (sameButCollections_caught_link orc w targetCid oid)
      (sameButCollections_unlink_fold orc oid targetCid _ _)

/-- CollFrame oid l l' says the collection lists agree entry by entry on
identity and name, and on membership of every object other than `oid`. -/
def CollFrame (oid : Nat) (l l' : List Collection) : Prop :=
  l'.length = l.length ∧
  ∀ k (hk : k < l.length) (hk' : k < l'.length),
    (l'.get ⟨k, hk'⟩).cid = (l.get ⟨k, hk⟩).cid ∧
    (l'.get ⟨k, hk'⟩).name = (l.get ⟨k, hk⟩).name ∧
    ∀ x, x ≠ oid → (x ∈ (l'.get ⟨k, hk'⟩).objs ↔ x ∈ (l.get ⟨k, hk⟩).objs)

theorem collFrame_refl (oid : Nat) (l : List Collection) : CollFrame oid l l :=
  ⟨rfl, fun k hk hk' => ⟨rfl, rfl, fun x _ => Iff.rfl⟩⟩

theorem collFrame_trans {oid : Nat} {l1 l2 l3 : List Collection}
    (h1 : CollFrame oid l1 l2) (h2 : CollFrame oid l2 l3) : CollFrame oid l1 l3 := by
  obtain ⟨hlen1, h1⟩ := h1
  obtain ⟨hlen2, h2⟩ := h2
  refine ⟨hlen2.trans hlen1, fun k hk hk' => ?_⟩
  have hk2 : k < l2.length := by omega
  obtain ⟨a1, b1, c1⟩ := h1 k hk hk2
  obtain ⟨a2, b2, c2⟩ := h2 k hk2 hk'
  exact ⟨a2.trans a1, b2.trans b1, fun x hx => (c2 x hx).trans (c1 x hx)⟩

theorem CollFrame.map_update {oid : Nat} (l : List Collection) (f : Collection → Collection)
    (hf : ∀ c, (f c).cid = c.cid ∧ (f c).name = c.name ∧
      ∀ x, x ≠ oid → (x ∈ (f c).objs ↔ x ∈ c.objs)) :
    CollFrame oid l (l.map f) := by
  refine ⟨List.length_map l f, fun k hk hk' => ?_⟩
  rw [List.get_eq_getElem, List.get_eq_getElem, List.getElem_map]
  exact hf _

theorem collFrame_linkObj (w : World) (cid oid : Nat) :
    CollFrame oid w.collections (linkObjToCollection w cid oid).collections := by
  apply CollFrame.map_update
  intro c
  by_cases h : c.cid = cid
  · rw [if_pos h]
    refine ⟨rfl, rfl, fun x hx => ?_⟩
    simp [List.mem_append, hx]
  · rw [if_neg h]
    exact ⟨rfl, rfl, fun x _ => Iff.rfl⟩

theorem collFrame_unlinkObj (w : World) (cid oid : Nat) :
    CollFrame oid w.collections (unlinkObjFromCollection w cid oid).collections := by
  apply CollFrame.map_update
  intro c
  by_cases h : c.cid = cid
  · rw [if_pos h]
    refine ⟨rfl, rfl, fun x hx => ?_⟩
    simp [List.mem_filter, hx]
  · rw [if_neg h]
    exact ⟨rfl, rfl, fun x _ => Iff.rfl⟩

theorem collFrame_caught_link (orc : Oracle) (w : World) (cid oid : Nat) :
    CollFrame oid w.collections (caught w (attemptLinkObj orc w cid oid)).collections := by
  unfold attemptLinkObj
  by_cases h : orc.linkFails cid oid
  · rw [if_pos h]; exact collFrame_refl oid w.collections
  · rw [if_neg h]; exact collFrame_linkObj w cid oid

theorem collFrame_caught_unlink (orc : Oracle) (w : World) (cid oid : Nat) :
    CollFrame oid w.collections (caught w (attemptUnlinkObj orc w cid oid)).collections := by
  unfold attemptUnlinkObj
  by_cases h : orc.unlinkFails cid oid
  · rw [if_pos h]; exact collFrame_refl oid w.collections
  · rw [if_neg h]; exact collFrame_unlinkObj w cid oid

theorem collFrame_unlink_fold (orc : Oracle) (oid targetCid : Nat) :
    ∀ (l : List Nat) (wacc : World),
      CollFrame oid wacc.collections
        (l.foldl (fun wa cid =>
          if cid ≠ targetCid then caught wa (attemptUnlinkObj orc wa cid oid) else wa)
          wacc).collections := by
  intro l
  induction l with
  | nil => intro wacc; exact collFrame_refl oid wacc.collections
  | cons c rest ih =>
    intro wacc
    simp only [List.foldl_cons]
    by_cases hc : c ≠ targetCid
    · rw [if_pos hc]
      exact collFrame_trans (collFrame_caught_unlink orc wacc c oid)
        (ih (caught wacc (attemptUnlinkObj orc wacc c oid)))
    · rw [if_neg hc]
      exact ih wacc

theorem move_collFrame (orc : Oracle) (w : World) (oid targetCid : Nat) :
    CollFrame oid w.collections
      (move_object_exclusively_to_collection orc w oid targetCid).collections := by
  unfold move_object_exclusively_to_collection
  split
  · exact collFrame_unlink_fold orc oid targetCid _ w
  · exact collFrame_trans (collFrame_caught_link orc w targetCid oid)
      (collFrame_unlink_fold orc oid targetCid _ _)

/-! ### Membership effect of a move -/

theorem mem_usersCids (w : World) (oid cid : Nat) :
    cid ∈ usersCids w oid ↔ ∃ c ∈ w.collections, c.cid = cid ∧ oid ∈ c.objs := by
  unfold usersCids
  simp only [List.mem_map, List.mem_filter]
  constructor
  · rintro ⟨c, ⟨hc, hcont⟩, rfl⟩
    exact ⟨c, hc, rfl, by simpa using hcont⟩
  · rintro ⟨c, hc, rfl, hmem⟩
    exact ⟨c, ⟨hc, by simpa using hmem⟩, rfl⟩

theorem mem_cid_inj {cols : List Collection} (hnd : (cols.map Collection.cid).Nodup)
    {c c' : Collection} (hc : c ∈ cols) (hc' : c' ∈ cols) (h : c.cid = c'.cid) : c = c' := by
  induction cols with
  | nil => cases hc
  | cons a rest ih =>
    rcases List.mem_cons.mp hc with rfl | hmc
    · rcases List.mem_cons.mp hc' with rfl | hmc'
      · rfl
      · exact absurd (h ▸ List.mem_map_of_mem Collection.cid hmc')
          (List.nodup_cons.mp hnd).1
    · rcases List.mem_cons.mp hc' with rfl | hmc'
      · exact absurd (h ▸ List.mem_map_of_mem Collection.cid hmc)
          (List.nodup_cons.mp hnd).1
      · exact ih (List.nodup_cons.mp hnd).2 hmc hmc'

theorem caught_unlink_eq (orc : Oracle) (w : World) (cid oid : Nat)
    (hu : orc.unlinkFails cid oid = false) :
    caught w (attemptUnlinkObj orc w cid oid) = unlinkObjFromCollection w cid oid := by
  unfold attemptUnlinkObj
  rw [hu]
  rfl

theorem caught_link_eq (orc : Oracle) (w : World) (cid oid : Nat)
    (hl : orc.linkFails cid oid = false) :
    caught w (attemptLinkObj orc w cid oid) = linkObjToCollection w cid oid := by
  unfold attemptLinkObj
  rw [hl]
  rfl

theorem unlink_fold_spec (orc : Oracle) (oid targetCid : Nat)
    (hu : ∀ cid, orc.unlinkFails cid oid = false) :
    ∀ (l : List Nat) (wacc : World),
      (∀ c ∈ wacc.collections, c.cid = targetCid → oid ∈ c.objs) →
      (∀ c ∈ wacc.collections, c.cid ≠ targetCid → oid ∈ c.objs → c.cid ∈ l) →
      ∀ c' ∈ (l.foldl (fun wa cid =>
          if cid ≠ targetCid then caught wa (attemptUnlinkObj orc wa cid oid) else wa)
          wacc).collections,
        (c'.cid = targetCid → oid ∈ c'.objs) ∧ (c'.cid ≠ targetCid → oid ∉ c'.objs) := by
  intro l
  induction l with
  | nil =>
    intro wacc h1 h2 c' hc'
    refine ⟨h1 c' hc', fun hne hmem => ?_⟩
    have := h2 c' hc' hne hmem
    simp at this
  | cons cid0 rest ih =>
    intro wacc h1 h2
    simp only [List.foldl_cons]
    by_cases hc0 : cid0 ≠ targetCid
    · rw [if_pos hc0, caught_unlink_eq orc wacc cid0 oid (hu cid0)]
      apply ih
      · intro c hc hcid
        unfold unlinkObjFromCollection at hc
        rcases List.mem_map.mp hc with ⟨c0, hc0m, rfl⟩
        by_cases hx : c0.cid = cid0
        · rw [if_pos hx] at hcid
          exact absurd hcid (by simpa [hx] using hc0)
        · rw [if_neg hx] at hcid ⊢
          exact h1 c0 hc0m hcid
      · intro c hc hne hmem
        unfold unlinkObjFromCollection at hc
        rcases List.mem_map.mp hc with ⟨c0, hc0m, rfl⟩
        by_cases hx : c0.cid = cid0
        · rw [if_pos hx] at hmem
          have hcontra := (List.mem_filter.mp hmem).2
          simp at hcontra
        · rw [if_neg hx] at hne hmem ⊢
          have := h2 c0 hc0m hne hmem
          rcases List.mem_cons.mp this with he | hr
          · exact absurd he hx
          · exact hr
    · rw [if_neg hc0]
      apply ih
      · exact h1
      · intro c hc hne hmem
        have := h2 c hc hne hmem
        rcases List.mem_cons.mp this with he | hr
        · exact absurd (he.trans (not_not.mp hc0)) hne
        · exact hr

theorem move_ok_mem (orc : Oracle) (w : World) (oid targetCid : Nat)
    (hl : orc.linkFails targetCid oid = false)
    (hu : ∀ cid, orc.unlinkFails cid oid = false)
    (hnd : (w.collections.map Collection.cid).Nodup) :
    ∀ c' ∈ (move_object_exclusively_to_collection orc w oid targetCid).collections,
      (c'.cid = targetCid → oid ∈ c'.objs) ∧ (c'.cid ≠ targetCid → oid ∉ c'.objs) := by
  unfold move_object_exclusively_to_collection
  by_cases hin : targetCid ∈ usersCids w oid
  · rw [if_pos hin]
    apply unlink_fold_spec orc oid targetCid hu
    · intro c hc hcid
      rcases (mem_usersCids w oid targetCid).mp hin with ⟨c0, hc0, hcid0, hmem0⟩
      have : c = c0 := mem_cid_inj hnd hc hc0 (hcid.trans hcid0.symm)
      exact this ▸ hmem0
    · intro c hc _ hmem
      exact (mem_usersCids w oid c.cid).mpr ⟨c, hc, rfl, hmem⟩
  · rw [if_neg hin, caught_link_eq orc w targetCid oid hl]
    apply unlink_fold_spec orc oid targetCid hu
    · intro c hc hcid
      unfold linkObjToCollection at hc
      rcases List.mem_map.mp hc with ⟨c0, hc0m, rfl⟩
      by_cases hx : c0.cid = targetCid
      · rw [if_pos hx]
        simp
      · rw [if_neg hx] at hcid
        exact absurd hcid hx
    · intro c hc _ hmem
      exact (mem_usersCids (linkObjToCollection w targetCid oid) oid c.cid).mpr
        ⟨c, hc, rfl, hmem⟩

theorem fold_id_of_all_target (orc : Oracle) (oid targetCid : Nat) :
    ∀ (l : List Nat) (w : World), (∀ x ∈ l, x = targetCid) →
      l.foldl (fun wa cid =>
        if cid ≠ targetCid then caught wa (attemptUnlinkObj orc wa cid oid) else wa) w = w := by
  intro l
  induction l with
  | nil => intro w _; rfl
  | cons x rest ih =>
    intro w hall
    simp only [List.foldl_cons]
    rw [if_neg (by simpa using hall x (List.mem_cons_self x rest))]
    exact ih w (fun y hy => hall y (List.mem_cons_of_mem x hy))

theorem move_id (orc : Oracle) (w : World) (oid targetCid : Nat)
    (h1 : targetCid ∈ usersCids w oid)
    (h2 : ∀ c ∈ w.collections, oid ∈ c.objs → c.cid = targetCid) :
    move_object_exclusively_to_collection orc w oid targetCid = w := by
  unfold move_object_exclusively_to_collection
  rw [if_pos h1]
  apply fold_id_of_all_target
  intro x hx
  rcases (mem_usersCids w oid x).mp hx with ⟨c, hc, hcid, hmem⟩
  exact hcid ▸ h2 c hc hmem

/-! ### Lemmas about find_or_create_collection -/

theorem caught_linkChild_fields (orc : Oracle) (w : World) (cid : Nat) :
    (caught w (attemptLinkChild orc w cid)).objects = w.objects ∧
    (caught w (attemptLinkChild orc w cid)).collections = w.collections ∧
    (caught w (attemptLinkChild orc w cid)).sceneObjIds = w.sceneObjIds ∧
    (caught w (attemptLinkChild orc w cid)).trackedIds = w.trackedIds ∧
    (caught w (attemptLinkChild orc w cid)).autoEnabled = w.autoEnabled ∧
    (caught w (attemptLinkChild orc w cid)).nextCid = w.nextCid := by
  unfold attemptLinkChild
  by_cases h : orc.childLinkFails cid
  · rw [if_pos h]
    exact ⟨rfl, rfl, rfl, rfl, rfl, rfl⟩
  · rw [if_neg h]
    exact ⟨rfl, rfl, rfl, rfl, rfl, rfl⟩

theorem find_or_create_cases (orc : Oracle) (w : World) (cname : String) :
    ((find_or_create_collection orc w cname).2.collections = w.collections ∧
      (find_or_create_collection orc w cname).2.nextCid = w.nextCid ∧
      ∃ c, w.collections.find? (fun x => x.name == cname) = some c ∧
        (find_or_create_collection orc w cname).1 = c.cid) ∨
    ((find_or_create_collection orc w cname).2.collections =
        w.collections ++ [⟨w.nextCid, cname, []⟩] ∧
      (find_or_create_collection orc w cname).2.nextCid = w.nextCid + 1 ∧
      (find_or_create_collection orc w cname).1 = w.nextCid ∧
      w.collections.find? (fun x => x.name == cname) = none) := by
  cases hf : w.collections.find? (fun x => x.name == cname) with
  | some c =>
    left
    simp only [find_or_create_collection, hf]
    split
    · exact ⟨rfl, rfl, c, rfl, rfl⟩
    · exact ⟨(caught_linkChild_fields orc w c.cid).2.1,
        (caught_linkChild_fields orc w c.cid).2.2.2.2.2, c, rfl, rfl⟩
  | none =>
    right
    simp only [find_or_create_collection, hf]
    split
    · exact ⟨rfl, rfl, rfl, trivial⟩
    · refine ⟨?_, ?_, rfl, trivial⟩
      · exact (caught_linkChild_fields orc _ w.nextCid).2.1
      · exact (caught_linkChild_fields orc _ w.nextCid).2.2.2.2.2

theorem find_or_create_frame (orc : Oracle) (w : World) (cname : String) :
    (find_or_create_collection orc w cname).2.objects = w.objects ∧
    (find_or_create_collection orc w cname).2.sceneObjIds = w.sceneObjIds ∧
    (find_or_create_collection orc w cname).2.trackedIds = w.trackedIds ∧
    (find_or_create_collection orc w cname).2.autoEnabled = w.autoEnabled := by
  cases hf : w.collections.find? (fun x => x.name == cname) with
  | some c =>
    simp only [find_or_create_collection, hf]
    split
    · exact ⟨rfl, rfl, rfl, rfl⟩
    · exact ⟨(caught_linkChild_fields orc w c.cid).1,
        (caught_linkChild_fields orc w c.cid).2.2.1,
        (caught_linkChild_fields orc w c.cid).2.2.2.1,
        (caught_linkChild_fields orc w c.cid).2.2.2.2.1⟩
  | none =>
    simp only [find_or_create_collection, hf]
    split
    · exact ⟨rfl, rfl, rfl, rfl⟩
    · exact ⟨(caught_linkChild_fields orc _ w.nextCid).1,
        (caught_linkChild_fields orc _ w.nextCid).2.2.1,
        (caught_linkChild_fields orc _ w.nextCid).2.2.2.1,
        (caught_linkChild_fields orc _ w.nextCid).2.2.2.2.1⟩

/-- WFc is the part of the host invariant about collections: distinct
collection identities, all below the fresh counter. -/
def WFc (w : World) : Prop :=
  (w.collections.map Collection.cid).Nodup ∧ ∀ c ∈ w.collections, c.cid < w.nextCid

theorem find_or_create_WFc (orc : Oracle) (w : World) (cname : String) (hwf : WFc w) :
    WFc (find_or_create_collection orc w cname).2 := by
  rcases find_or_create_cases orc w cname with ⟨hcol, hnext, _⟩ | ⟨hcol, hnext, _, _⟩
  · rw [WFc, hcol, hnext]
    exact hwf
  · rw [WFc, hcol, hnext]
    constructor
    · rw [List.map_append]
      rw [List.nodup_append]
      refine ⟨hwf.1, List.nodup_singleton _, ?_⟩
      intro x hx hx'
      simp only [List.map_cons, List.map_nil, List.mem_singleton] at hx'
      rcases List.mem_map.mp hx with ⟨c, hc, rfl⟩
      exact absurd hx' (Nat.ne_of_lt (hwf.2 c hc))
    · intro c hc
      rcases List.mem_append.mp hc with hc1 | hc2
      · exact Nat.lt_succ_of_lt (hwf.2 c hc1)
      · simp only [List.mem_singleton] at hc2
        rw [hc2]
        exact Nat.lt_succ_self _

theorem collFrame_map_cid {oid : Nat} {l l' : List Collection} (h : CollFrame oid l l') :
    l'.map Collection.cid = l.map Collection.cid := by
  apply List.ext_getElem (by simp [h.1])
  intro i h1 h2
  simp only [List.getElem_map]
  have := (h.2 i (by simpa using h2) (by simpa using h1)).1
  rw [List.get_eq_getElem, List.get_eq_getElem] at this
  exact this

theorem collFrame_map_name {oid : Nat} {l l' : List Collection} (h : CollFrame oid l l') :
    l'.map Collection.name = l.map Collection.name := by
  apply List.ext_getElem (by simp [h.1])
  intro i h1 h2
  simp only [List.getElem_map]
  have := (h.2 i (by simpa using h2) (by simpa using h1)).2.1
  rw [List.get_eq_getElem, List.get_eq_getElem] at this
  exact this

/-- C5: after `move_object_exclusively_to_collection`, provided the host's
link and unlink calls for this object do not fail, the object is linked to
the target collection and to no other collection. -/
theorem C5_move_links_exclusively (orc : Oracle) (w : World) (oid targetCid : Nat)
    (hl : orc.linkFails targetCid oid = false)
    (hu : ∀ cid, orc.unlinkFails cid oid = false)
    (hnd : (w.collections.map Collection.cid).Nodup)
    (htarget : ∃ c ∈ w.collections, c.cid = targetCid) :
    (∃ c' ∈ (move_object_exclusively_to_collection orc w oid targetCid).collections,
       c'.cid = targetCid ∧ oid ∈ c'.objs) ∧
    ∀ c' ∈ (move_object_exclusively_to_collection orc w oid targetCid).collections,
      (oid ∈ c'.objs ↔ c'.cid = targetCid) := by
  have hmem := move_ok_mem orc w oid targetCid hl hu hnd
  constructor
  · rcases htarget with ⟨c, hc, hcid⟩
    have hcid_mem : targetCid ∈
        (move_object_exclusively_to_collection orc w oid targetCid).collections.map
          Collection.cid := by
      rw [collFrame_map_cid (move_collFrame orc w oid targetCid)]
      exact hcid ▸ List.mem_map_of_mem Collection.cid hc
    rcases List.mem_map.mp hcid_mem with ⟨c', hc', hcid'⟩
    exact ⟨c', hc', hcid', (hmem c' hc').1 hcid'⟩
  · intro c' hc'
    constructor
    · intro hin
      by_contra hne
      exact (hmem c' hc').2 hne hin
    · intro hcid
      exact (hmem c' hc').1 hcid

/-! ### Failure handling (claim C6) -/

theorem fold_allFail_id (oid targetCid : Nat) :
    ∀ (l : List Nat) (w : World),
      l.foldl (fun wa cid =>
        if cid ≠ targetCid then caught wa (attemptUnlinkObj Oracle.allFail wa cid oid)
        else wa) w = w := by
  intro l
  induction l with
  | nil => intro w; rfl
  | cons x rest ih =>
    intro w
    simp only [List.foldl_cons]
    by_cases hx : x ≠ targetCid
    · rw [if_pos hx]
      have : caught w (attemptUnlinkObj Oracle.allFail w x oid) = w := rfl
      rw [this]
      exact ih w
    · rw [if_neg hx]
      exact ih w

/-- C6: every host link/unlink failure is swallowed inside
`find_or_create_collection` and `move_object_exclusively_to_collection`
(under the always-failing oracle both calls complete, the move leaving the
world untouched and the find-or-create leaving the root children untouched),
while a failing report-file write surfaces as an ERROR report and CANCELLED
result instead of FINISHED. -/
theorem C6_failures_swallowed_export_surfaced :
    (∀ (w : World) (oid targetCid : Nat),
       move_object_exclusively_to_collection Oracle.allFail w oid targetCid = w) ∧
    (∀ (w : World) (cname : String),
       (find_or_create_collection Oracle.allFail w cname).2.rootChildren = w.rootChildren) ∧
    (∀ w : World, export_report_execute true w = (OpResult.CANCELLED, "ERROR", none)) ∧
    (∀ w : World, (export_report_execute false w).1 = OpResult.FINISHED ∧
       (export_report_execute false w).2.1 = "INFO") := by
  refine ⟨?_, ?_, ?_, ?_⟩
  · intro w oid targetCid
    unfold move_object_exclusively_to_collection
    by_cases hin : targetCid ∈ usersCids w oid
    · rw [if_pos hin]
      exact fold_allFail_id oid targetCid _ w
    · rw [if_neg hin]
      have : caught w (attemptLinkObj Oracle.allFail w targetCid oid) = w := rfl
      rw [this]
      exact fold_allFail_id oid targetCid _ w
  · intro w cname
    cases hf : w.collections.find? (fun x => x.name == cname) with
    | some c =>
      simp only [find_or_create_collection, hf]
      split
      · rfl
      · rfl
    | none =>
      simp only [find_or_create_collection, hf]
      split
      · rfl
      · rfl
  · intro w
    rfl
  · intro w
    exact ⟨rfl, rfl⟩

/-! ### Handler gating (claim C7) -/

/-- C7: when the per-scene auto-organize toggle is off or the scene is
absent, both notification handlers return the context unchanged: no object
is renamed, no collection membership changes and no collection is created. -/
theorem C7_handlers_gated (orc : Oracle) (ctx : Option World)
    (h : is_auto_enabled ctx = false) :
    handle_load_post orc ctx = ctx ∧ handle_depsgraph_update orc ctx = ctx := by
  cases ctx with
  | none => exact ⟨rfl, rfl⟩
  | some s =>
    constructor
    · simp [handle_load_post, h]
    · simp [handle_depsgraph_update, h]

/-! ### Set-active-camera operator (claim C10) -/

/-- C10: the set-active-camera operator cancels and leaves the context
unchanged when the context object is absent or not a camera; on a camera it
sets the scene's active camera to that object and finishes even when no 3D
view could be switched. -/
theorem C10_set_active_camera (canSwitchView : Bool) (c : CameraCtx) :
    ((c.ctxObj = none → set_active_camera_execute canSwitchView c = (OpResult.CANCELLED, c)) ∧
     (∀ o, c.ctxObj = some o → o.type ≠ "CAMERA" →
       set_active_camera_execute canSwitchView c = (OpResult.CANCELLED, c))) ∧
    (∀ o, c.ctxObj = some o → o.type = "CAMERA" →
       (set_active_camera_execute canSwitchView c).1 = OpResult.FINISHED ∧
       (set_active_camera_execute canSwitchView c).2.sceneCamera = some o.oid) := by
  refine ⟨⟨?_, ?_⟩, ?_⟩
  · intro hnone
    unfold set_active_camera_execute
    rw [hnone]
  · intro o ho hty
    unfold set_active_camera_execute
    rw [ho]
    simp only [if_pos hty]
  · intro o ho hty
    unfold set_active_camera_execute
    rw [ho]
    simp only [hty]
    rw [if_neg (by simp [hty])]
    exact ⟨rfl, rfl⟩

/-! ### Concrete witness worlds -/

/-- wA is a small concrete scene: two cameras, one light, one mesh, all in
one collection "Stuff" linked under the scene root. -/
def wA : World :=
  { objects := [⟨1, "CAMERA", "b"⟩, ⟨2, "CAMERA", "a"⟩, ⟨3, "LIGHT", "sun"⟩,
      ⟨4, "MESH", "cube"⟩],
    collections := [⟨0, "Stuff", [1, 2, 3, 4]⟩],
    rootChildren := [0],
    sceneObjIds := [1, 2, 3, 4],
    trackedIds := [],
    autoEnabled := true,
    nextCid := 1 }

/-- wOff is a scene with the auto-organize toggle off. -/
def wOff : World :=
  { objects := [⟨1, "CAMERA", "b"⟩],
    collections := [],
    rootChildren := [],
    sceneObjIds := [1],
    trackedIds := [],
    autoEnabled := false,
    nextCid := 0 }

theorem C3_witness :
    (wA.objects.map Obj.oid).Nodup ∧
    lookupObj wA 1 = some ⟨1, "CAMERA", "b"⟩ ∧
    typeNameOf (Obj.type ⟨1, "CAMERA", "b"⟩) = some "Camera" ∧
    (∃ k : Nat,
      lookupObj (rename_object_sequentially wA 1) 1 =
          some { (⟨1, "CAMERA", "b"⟩ : Obj) with name := "Camera" ++ " " ++ natToStr k } ∧
      1 ≤ k ∧
      ¬ (∃ o ∈ wA.objects, o.type = Obj.type ⟨1, "CAMERA", "b"⟩ ∧
          matchTypeNumber "Camera" o.name = some k) ∧
      (∀ j, 1 ≤ j → j < k →
        ∃ o ∈ wA.objects, o.type = Obj.type ⟨1, "CAMERA", "b"⟩ ∧
          matchTypeNumber "Camera" o.name = some j)) :=
  ⟨by decide, by decide, by decide,
    C3_rename_single_lowest_unused wA 1 ⟨1, "CAMERA", "b"⟩ "Camera"
      (by decide) (by decide) (by decide)⟩

theorem C4_witness :
    typeNameOf "CAMERA" = some "Camera" ∧
    (wA.objects.map Obj.oid).Nodup ∧
    ((List.Sorted nameLe (sortByName (wA.objects.filter (fun o => o.type == "CAMERA"))) ∧
      List.Perm (sortByName (wA.objects.filter (fun o => o.type == "CAMERA")))
        (wA.objects.filter (fun o => o.type == "CAMERA"))) ∧
    (∀ (j : Nat) (hj : j < (sortByName (wA.objects.filter (fun o => o.type == "CAMERA"))).length),
      lookupObj (rename_objects_sequentially_of_type wA "CAMERA")
          ((sortByName (wA.objects.filter (fun o => o.type == "CAMERA"))).get ⟨j, hj⟩).oid =
        some { (sortByName (wA.objects.filter (fun o => o.type == "CAMERA"))).get ⟨j, hj⟩ with
               name := "Camera" ++ " " ++ natToStr (j + 1) }) ∧
    (∀ o ∈ wA.objects, o.type ≠ "CAMERA" →
      lookupObj (rename_objects_sequentially_of_type wA "CAMERA") o.oid = some o) ∧
    (∀ t', typeNameOf t' = none → rename_objects_sequentially_of_type wA t' = wA)) :=
  ⟨by decide, by decide,
    C4_rename_of_type_correct wA "CAMERA" "Camera" (by decide) (by decide)⟩

theorem C5_witness :
    Oracle.ok.linkFails 0 1 = false ∧
    (∀ cid, Oracle.ok.unlinkFails cid 1 = false) ∧
    (wA.collections.map Collection.cid).Nodup ∧
    (∃ c ∈ wA.collections, c.cid = 0) ∧
    ((∃ c' ∈ (move_object_exclusively_to_collection Oracle.ok wA 1 0).collections,
        c'.cid = 0 ∧ 1 ∈ c'.objs) ∧
      ∀ c' ∈ (move_object_exclusively_to_collection Oracle.ok wA 1 0).collections,
        (1 ∈ c'.objs ↔ c'.cid = 0)) :=
  ⟨rfl, fun _ => rfl, by decide, ⟨⟨0, "Stuff", [1, 2, 3, 4]⟩, by decide, rfl⟩,
    C5_move_links_exclusively Oracle.ok wA 1 0 rfl (fun _ => rfl) (by decide)
      ⟨⟨0, "Stuff", [1, 2, 3, 4]⟩, by decide, rfl⟩⟩

theorem C7_witness :
    is_auto_enabled (some wOff) = false ∧
    (handle_load_post Oracle.ok (some wOff) = some wOff ∧
      handle_depsgraph_update Oracle.ok (some wOff) = some wOff) :=
  ⟨by decide, C7_handlers_gated Oracle.ok (some wOff) (by decide)⟩

theorem C10_witness :
    ((CameraCtx.mk none (some ⟨7, "CAMERA", "Camera 1"⟩) false).ctxObj =
      some ⟨7, "CAMERA", "Camera 1"⟩) ∧
    Obj.type ⟨7, "CAMERA", "Camera 1"⟩ = "CAMERA" ∧
    ((set_active_camera_execute false
        (CameraCtx.mk none (some ⟨7, "CAMERA", "Camera 1"⟩) false)).1 = OpResult.FINISHED ∧
      (set_active_camera_execute false
        (CameraCtx.mk none (some ⟨7, "CAMERA", "Camera 1"⟩) false)).2.sceneCamera = some 7) :=
  ⟨rfl, rfl,
    (C10_set_active_camera false (CameraCtx.mk none (some ⟨7, "CAMERA", "Camera 1"⟩) false)).2
      ⟨7, "CAMERA", "Camera 1"⟩ rfl rfl⟩

/-! ### The seen-objects cache (claims C8, C9) -/

theorem rebuild_mem (w : World) (i : Nat) :
    i ∈ (rebuild_tracked_ids w).trackedIds ↔
      i ∈ w.sceneObjIds ∧ ∃ o, lookupObj w i = some o ∧ o.type ∈ TARGET_OBJECT_TYPES := by
  unfold rebuild_tracked_ids
  simp only [List.mem_filter]
  constructor
  · rintro ⟨hs, hp⟩
    refine ⟨hs, ?_⟩
    cases hlook : lookupObj w i with
    | none => rw [hlook] at hp; cases hp
    | some o =>
      rw [hlook] at hp
      exact ⟨o, rfl, by simpa using hp⟩
  · rintro ⟨hs, o, hlook, hty⟩
    refine ⟨hs, ?_⟩
    rw [hlook]
    simpa using hty

theorem rename_single_lookup_type (w : World) (j i : Nat) :
    (lookupObj (rename_object_sequentially w j) i).map Obj.type =
      (lookupObj w i).map Obj.type := by
  unfold rename_object_sequentially
  split
  · rfl
  · split
    · rfl
    · unfold lookupObj
      rw [setName_find?]
      cases hfind : w.objects.find? (fun o => o.oid == i) with
      | none => rfl
      | some o =>
        simp only [Option.map_some']
        by_cases h : o.oid = j <;> simp [h]

theorem moveByType_sameButCollections (orc : Oracle) (camCid lightCid : Nat)
    (w : World) (i : Nat) :
    SameButCollections w (moveByType orc camCid lightCid w i) := by
  unfold moveByType
  split
  · split
    · exact move_sameButCollections orc w i camCid
    · split
      · exact move_sameButCollections orc w i lightCid
      · exact sameButCollections_refl w
  · exact sameButCollections_refl w

theorem moveByType_collFrame (orc : Oracle) (camCid lightCid : Nat) (w : World) (i : Nat) :
    CollFrame i w.collections (moveByType orc camCid lightCid w i).collections := by
  unfold moveByType
  split
  · split
    · exact move_collFrame orc w i camCid
    · split
      · exact move_collFrame orc w i lightCid
      · exact collFrame_refl i w.collections
  · exact collFrame_refl i w.collections

theorem organizeNewFold_type_scene (orc : Oracle) (camCid lightCid : Nat) :
    ∀ (ids : List Nat) (wst : World),
      (∀ i, (lookupObj (organizeNewFold orc camCid lightCid ids wst) i).map Obj.type =
        (lookupObj wst i).map Obj.type) ∧
      (organizeNewFold orc camCid lightCid ids wst).sceneObjIds = wst.sceneObjIds ∧
      (organizeNewFold orc camCid lightCid ids wst).autoEnabled = wst.autoEnabled := by
  intro ids
  induction ids with
  | nil => intro wst; exact ⟨fun i => rfl, rfl, rfl⟩
  | cons j rest ih =>
    intro wst
    have hunf : organizeNewFold orc camCid lightCid (j :: rest) wst =
        organizeNewFold orc camCid lightCid rest
          (moveByType orc camCid lightCid (rename_object_sequentially wst j) j) := rfl
    rw [hunf]
    have hstep_type : ∀ i,
        (lookupObj (moveByType orc camCid lightCid (rename_object_sequentially wst j) j) i).map
            Obj.type = (lookupObj wst i).map Obj.type := by
      intro i
      have h1 := (moveByType_sameButCollections orc camCid lightCid
        (rename_object_sequentially wst j) j).1
      have h2 : lookupObj (moveByType orc camCid lightCid
          (rename_object_sequentially wst j) j) i =
          lookupObj (rename_object_sequentially wst j) i := by
        unfold lookupObj
        rw [h1]
      rw [h2, rename_single_lookup_type]
    have hstep_scene :
        (moveByType orc camCid lightCid (rename_object_sequentially wst j) j).sceneObjIds =
          wst.sceneObjIds := by
      rw [(moveByType_sameButCollections orc camCid lightCid
        (rename_object_sequentially wst j) j).2.2.1]
      exact (rename_single_frame wst j).2.2.1
    have hstep_auto :
        (moveByType orc camCid lightCid (rename_object_sequentially wst j) j).autoEnabled =
          wst.autoEnabled := by
      rw [(moveByType_sameButCollections orc camCid lightCid
        (rename_object_sequentially wst j) j).2.2.2.2.1]
      exact (rename_single_frame wst j).2.2.2.2.1
    refine ⟨fun i => ?_, ?_, ?_⟩
    · rw [(ih _).1 i, hstep_type i]
    · rw [(ih _).2.1, hstep_scene]
    · rw [(ih _).2.2, hstep_auto]

theorem lookup_rebuild (w : World) (i : Nat) :
    lookupObj (rebuild_tracked_ids w) i = lookupObj w i := rfl

theorem scene_rebuild (w : World) : (rebuild_tracked_ids w).sceneObjIds = w.sceneObjIds := rfl

theorem organize_new_unfold (orc : Oracle) (w : World) :
    organize_new_objects orc w =
      rebuild_tracked_ids (organizeNewFold orc
        (find_or_create_collection orc w CAMERAS_COLLECTION_NAME).1
        (find_or_create_collection orc
          (find_or_create_collection orc w CAMERAS_COLLECTION_NAME).2
          LIGHTS_COLLECTION_NAME).1
        (newObjectIds (find_or_create_collection orc
          (find_or_create_collection orc w CAMERAS_COLLECTION_NAME).2
          LIGHTS_COLLECTION_NAME).2)
        (find_or_create_collection orc
          (find_or_create_collection orc w CAMERAS_COLLECTION_NAME).2
          LIGHTS_COLLECTION_NAME).2) := rfl

theorem organize_new_lookup_type (orc : Oracle) (w : World) :
    (∀ i, (lookupObj (organize_new_objects orc w) i).map Obj.type =
      (lookupObj w i).map Obj.type) ∧
    (organize_new_objects orc w).sceneObjIds = w.sceneObjIds := by
  have hfr1 := find_or_create_frame orc w CAMERAS_COLLECTION_NAME
  have hfr2 := find_or_create_frame orc
    (find_or_create_collection orc w CAMERAS_COLLECTION_NAME).2 LIGHTS_COLLECTION_NAME
  have hfold := organizeNewFold_type_scene orc
    (find_or_create_collection orc w CAMERAS_COLLECTION_NAME).1
    (find_or_create_collection orc
      (find_or_create_collection orc w CAMERAS_COLLECTION_NAME).2 LIGHTS_COLLECTION_NAME).1
    (newObjectIds (find_or_create_collection orc
      (find_or_create_collection orc w CAMERAS_COLLECTION_NAME).2 LIGHTS_COLLECTION_NAME).2)
    (find_or_create_collection orc
      (find_or_create_collection orc w CAMERAS_COLLECTION_NAME).2 LIGHTS_COLLECTION_NAME).2
  have hw2look : ∀ i, lookupObj (find_or_create_collection orc
      (find_or_create_collection orc w CAMERAS_COLLECTION_NAME).2
      LIGHTS_COLLECTION_NAME).2 i = lookupObj w i := by
    intro i
    unfold lookupObj
    rw [hfr2.1.trans hfr1.1]
  have hw2scene : (find_or_create_collection orc
      (find_or_create_collection orc w CAMERAS_COLLECTION_NAME).2
      LIGHTS_COLLECTION_NAME).2.sceneObjIds = w.sceneObjIds := hfr2.2.1.trans hfr1.2.1
  rw [organize_new_unfold]
  constructor
  · intro i
    rw [lookup_rebuild, hfold.1 i, hw2look i]
  · rw [scene_rebuild, hfold.2.1, hw2scene]

/-- C8: the seen-objects cache is fully rebuildable: `rebuild_tracked_ids`
makes it exactly the identities of the scene's tracked-type objects, and
`organize_new_objects` always ends with the cache in the state a fresh
rebuild of the resulting scene would give, which is again exactly the
scene's tracked identities. -/
theorem C8_cache_rebuildable (orc : Oracle) (w : World) :
    (∀ i, i ∈ (rebuild_tracked_ids w).trackedIds ↔
       (i ∈ w.sceneObjIds ∧ ∃ o, lookupObj w i = some o ∧ o.type ∈ TARGET_OBJECT_TYPES)) ∧
    (organize_new_objects orc w).trackedIds =
      (rebuild_tracked_ids (organize_new_objects orc w)).trackedIds ∧
    (∀ i, i ∈ (organize_new_objects orc w).trackedIds ↔
       (i ∈ w.sceneObjIds ∧ ∃ o, lookupObj w i = some o ∧ o.type ∈ TARGET_OBJECT_TYPES)) := by
  refine ⟨rebuild_mem w, rfl, ?_⟩
  intro i
  have hmain := organize_new_lookup_type orc w
  rw [organize_new_unfold, rebuild_mem]
  rw [organize_new_unfold] at hmain
  simp only [lookup_rebuild, scene_rebuild] at hmain
  constructor
  · rintro ⟨hs, o, hlo, hty⟩
    rw [hmain.2] at hs
    refine ⟨hs, ?_⟩
    have hmap := hmain.1 i
    rw [hlo] at hmap
    simp only [Option.map_some'] at hmap
    rcases Option.map_eq_some'.mp hmap.symm with ⟨o', ho', hty'⟩
    exact ⟨o', ho', by rw [hty']; exact hty⟩
  · rintro ⟨hs, o, hlo, hty⟩
    rw [← hmain.2] at hs
    refine ⟨hs, ?_⟩
    have hmap := hmain.1 i
    rw [hlo] at hmap
    simp only [Option.map_some'] at hmap
    rcases Option.map_eq_some'.mp hmap with ⟨o', ho', hty'⟩
    exact ⟨o', ho', by rw [hty']; exact hty⟩

/-! ### Frame of organize_new_objects on cached objects (claim C9) -/

theorem CollFrame.nil_inv {oid : Nat} {l' : List Collection} (h : CollFrame oid [] l') :
    l' = [] :=
  List.length_eq_zero.mp h.1

theorem CollFrame.cons_inv {oid : Nat} {a : Collection} {l l2 : List Collection}
    (h : CollFrame oid (a :: l) l2) :
    ∃ b l', l2 = b :: l' ∧ b.cid = a.cid ∧ b.name = a.name ∧
      (∀ x, x ≠ oid → (x ∈ b.objs ↔ x ∈ a.objs)) ∧ CollFrame oid l l' := by
  cases l2 with
  | nil => exact absurd h.1 (by simp)
  | cons b l' =>
    have h0 := h.2 0 (by simp) (by simp)
    refine ⟨b, l', rfl, h0.1, h0.2.1, h0.2.2, ?_, ?_⟩
    · simpa using h.1
    · intro k hk hk'
      exact h.2 (k + 1) (by simpa using Nat.succ_lt_succ hk)
        (by simpa using Nat.succ_lt_succ hk')

theorem usersCids_of_collFrame {j x : Nat} (hx : x ≠ j) :
    ∀ {l l' : List Collection}, CollFrame j l l' →
      (l'.filter (fun c => c.objs.contains x)).map Collection.cid =
        (l.filter (fun c => c.objs.contains x)).map Collection.cid := by
  intro l
  induction l with
  | nil =>
    intro l' h
    rw [h.nil_inv]
  | cons a rest ih =>
    intro l' h
    rcases h.cons_inv with ⟨b, l2, rfl, hcid, hname, hobjs, hrest⟩
    simp only [List.filter_cons]
    have hmem : (b.objs.contains x) = (a.objs.contains x) := by
      by_cases hm : x ∈ a.objs
      · have : x ∈ b.objs := (hobjs x hx).mpr hm
        simp [hm, this]
      · have : x ∉ b.objs := fun hc => hm ((hobjs x hx).mp hc)
        simp [hm, this]
    rw [hmem]
    by_cases hm : a.objs.contains x
    · rw [if_pos hm, if_pos hm]
      simp only [List.map_cons]
      rw [hcid, ih hrest]
    · rw [if_neg hm, if_neg hm]
      exact ih hrest

theorem usersCids_moveByType_ne (orc : Oracle) (camCid lightCid : Nat) (w : World)
    (j x : Nat) (hx : x ≠ j) :
    usersCids (moveByType orc camCid lightCid w j) x = usersCids w x :=
  usersCids_of_collFrame hx (moveByType_collFrame orc camCid lightCid w j)

theorem usersCids_rename_single (w : World) (j x : Nat) :
    usersCids (rename_object_sequentially w j) x = usersCids w x := by
  unfold usersCids
  rw [(rename_single_frame w j).1]

theorem organizeNewFold_lookup_ne (orc : Oracle) (camCid lightCid : Nat) :
    ∀ (ids : List Nat) (wst : World) (x : Nat), x ∉ ids →
      lookupObj (organizeNewFold orc camCid lightCid ids wst) x = lookupObj wst x := by
  intro ids
  induction ids with
  | nil => intro wst x _; rfl
  | cons j rest ih =>
    intro wst x hx
    have hxj : x ≠ j := fun hc => hx (hc ▸ List.mem_cons_self j rest)
    have hxr : x ∉ rest := fun hc => hx (List.mem_cons_of_mem j hc)
    have hunf : organizeNewFold orc camCid lightCid (j :: rest) wst =
        organizeNewFold orc camCid lightCid rest
          (moveByType orc camCid lightCid (rename_object_sequentially wst j) j) := rfl
    rw [hunf, ih _ x hxr]
    have hmv : lookupObj (moveByType orc camCid lightCid
        (rename_object_sequentially wst j) j) x =
        lookupObj (rename_object_sequentially wst j) x := by
      unfold lookupObj
      rw [(moveByType_sameButCollections orc camCid lightCid
        (rename_object_sequentially wst j) j).1]
    rw [hmv, rename_single_lookup_ne wst j x hxj]

theorem organizeNewFold_users_ne (orc : Oracle) (camCid lightCid : Nat) :
    ∀ (ids : List Nat) (wst : World) (x : Nat), x ∉ ids →
      usersCids (organizeNewFold orc camCid lightCid ids wst) x = usersCids wst x := by
  intro ids
  induction ids with
  | nil => intro wst x _; rfl
  | cons j rest ih =>
    intro wst x hx
    have hxj : x ≠ j := fun hc => hx (hc ▸ List.mem_cons_self j rest)
    have hxr : x ∉ rest := fun hc => hx (List.mem_cons_of_mem j hc)
    have hunf : organizeNewFold orc camCid lightCid (j :: rest) wst =
        organizeNewFold orc camCid lightCid rest
          (moveByType orc camCid lightCid (rename_object_sequentially wst j) j) := rfl
    rw [hunf, ih _ x hxr, usersCids_moveByType_ne orc camCid lightCid _ j x hxj,
      usersCids_rename_single wst j x]

theorem usersCids_find_or_create (orc : Oracle) (w : World) (cname : String) (x : Nat) :
    usersCids (find_or_create_collection orc w cname).2 x = usersCids w x := by
  rcases find_or_create_cases orc w cname with ⟨hcol, _, _⟩ | ⟨hcol, _, _, _⟩
  · unfold usersCids
    rw [hcol]
  · unfold usersCids
    rw [hcol, List.filter_append]
    have : ([(⟨w.nextCid, cname, []⟩ : Collection)].filter
        (fun c => c.objs.contains x)) = [] := rfl
    rw [this, List.append_nil]

theorem not_mem_newObjectIds (w : World) (i : Nat) (h : i ∈ w.trackedIds) :
    i ∉ newObjectIds w := by
  unfold newObjectIds
  intro hmem
  have hp := (List.mem_filter.mp hmem).2
  cases hl : lookupObj w i with
  | none => rw [hl] at hp; cases hp
  | some o =>
    rw [hl] at hp
    have hcontains : (w.trackedIds.contains i) = false := by
      simp only [Bool.and_eq_true, Bool.not_eq_true'] at hp
      exact hp.2
    have htrue : (w.trackedIds.contains i) = true := by simpa using h
    rw [htrue] at hcontains
    cases hcontains

theorem usersCids_rebuild (w : World) (x : Nat) :
    usersCids (rebuild_tracked_ids w) x = usersCids w x := rfl

/-- C9: `organize_new_objects` only renames and relinks objects whose
identity is absent from the cache: an object whose identity is already in
TRACKED_OBJECT_IDS keeps its name (the lookup still returns the identical
object) and its collection memberships. -/
theorem C9_cached_objects_untouched (orc : Oracle) (w : World)
    (hnd : (w.objects.map Obj.oid).Nodup)
    (o : Obj) (ho : o ∈ w.objects) (htr : o.oid ∈ w.trackedIds) :
    lookupObj (organize_new_objects orc w) o.oid = some o ∧
    usersCids (organize_new_objects orc w) o.oid = usersCids w o.oid := by
  rw [organize_new_unfold]
  set p1 := find_or_create_collection orc w CAMERAS_COLLECTION_NAME with hp1
  set p2 := find_or_create_collection orc p1.2 LIGHTS_COLLECTION_NAME with hp2
  have hfr1 := find_or_create_frame orc w CAMERAS_COLLECTION_NAME
  have hfr2 := find_or_create_frame orc p1.2 LIGHTS_COLLECTION_NAME
  rw [← hp1] at hfr1
  rw [← hp2] at hfr2
  have htr2 : o.oid ∈ p2.2.trackedIds := by
    rw [hfr2.2.2.1, hfr1.2.2.1]
    exact htr
  have hnot := not_mem_newObjectIds p2.2 o.oid htr2
  constructor
  · rw [lookup_rebuild,
      organizeNewFold_lookup_ne orc p1.1 p2.1 (newObjectIds p2.2) p2.2 o.oid hnot]
    have hlk : lookupObj p2.2 o.oid = lookupObj w o.oid := by
      unfold lookupObj
      rw [hfr2.1, hfr1.1]
    rw [hlk]
    exact lookup_mem_nodup w.objects hnd ho
  · rw [usersCids_rebuild,
      organizeNewFold_users_ne orc p1.1 p2.1 (newObjectIds p2.2) p2.2 o.oid hnot]
    rw [hp2, usersCids_find_or_create orc p1.2 LIGHTS_COLLECTION_NAME o.oid]
    rw [hp1, usersCids_find_or_create orc w CAMERAS_COLLECTION_NAME o.oid]

/-- wB is wA with the tracked-object cache already holding the tracked
objects' identities. -/
def wB : World := { wA with trackedIds := [1, 2, 3] }

theorem C9_witness :
    (wB.objects.map Obj.oid).Nodup ∧
    (⟨1, "CAMERA", "b"⟩ : Obj) ∈ wB.objects ∧
    Obj.oid ⟨1, "CAMERA", "b"⟩ ∈ wB.trackedIds ∧
    (lookupObj (organize_new_objects Oracle.ok wB) (Obj.oid ⟨1, "CAMERA", "b"⟩) =
        some ⟨1, "CAMERA", "b"⟩ ∧
      usersCids (organize_new_objects Oracle.ok wB) (Obj.oid ⟨1, "CAMERA", "b"⟩) =
        usersCids wB (Obj.oid ⟨1, "CAMERA", "b"⟩)) :=
  ⟨by decide, by decide, by decide,
    C9_cached_objects_untouched Oracle.ok wB (by decide) ⟨1, "CAMERA", "b"⟩
      (by decide) (by decide)⟩

/-! ### Infrastructure for the organize-scene invariant (claim C1) -/

theorem find_or_create_getCollection (orc : Oracle) (w : World) (cname : String) :
    ∃ c, getCollection (find_or_create_collection orc w cname).2 cname = some c ∧
      c.cid = (find_or_create_collection orc w cname).1 ∧ c.name = cname := by
  rcases find_or_create_cases orc w cname with ⟨hcol, _, c, hf, hret⟩ | ⟨hcol, _, hret, hf⟩
  · refine ⟨c, ?_, hret.symm, ?_⟩
    · unfold getCollection
      rw [hcol]
      exact hf
    · simpa using List.find?_some hf
  · refine ⟨⟨w.nextCid, cname, []⟩, ?_, hret.symm, rfl⟩
    unfold getCollection
    rw [hcol, List.find?_append, hf]
    simp [List.find?]

theorem getCollection_extend (w w' : World) (cname : String) (c : Collection)
    (h : getCollection w cname = some c)
    (hcol : w'.collections = w.collections ∨ ∃ d, w'.collections = w.collections ++ [d]) :
    getCollection w' cname = some c := by
  rcases hcol with hcol | ⟨d, hcol⟩
  · unfold getCollection at h ⊢
    rw [hcol]
    exact h
  · unfold getCollection at h ⊢
    rw [hcol, List.find?_append, h]
    rfl

theorem getCollection_of_maps_eq :
    ∀ {l l' : List Collection}, l'.map Collection.cid = l.map Collection.cid →
      l'.map Collection.name = l.map Collection.name →
      ∀ (cname : String) (c : Collection), l.find? (fun x => x.name == cname) = some c →
        ∃ c', l'.find? (fun x => x.name == cname) = some c' ∧ c'.cid = c.cid := by
  intro l
  induction l with
  | nil =>
    intro l' h1 h2 cname c hf
    cases hf
  | cons a rest ih =>
    intro l' h1 h2 cname c hf
    cases l' with
    | nil => exact absurd h1 (by simp)
    | cons b rest' =>
      simp only [List.map_cons, List.cons.injEq] at h1 h2
      by_cases hn : a.name = cname
      · have hbeq : (a.name == cname) = true := beq_iff_eq.mpr hn
        simp only [List.find?, hbeq] at hf
        have hc : c = a := (Option.some_injective _ hf).symm
        have hbn : (b.name == cname) = true := beq_iff_eq.mpr (h2.1.trans hn)
        refine ⟨b, ?_, by rw [h1.1, hc]⟩
        simp only [List.find?, hbn]
      · have hbeq : (a.name == cname) = false := beq_eq_false_iff_ne.mpr hn
        simp only [List.find?, hbeq] at hf
        have hbn : (b.name == cname) = false :=
          beq_eq_false_iff_ne.mpr (fun hc => hn (h2.1.symm.trans hc))
        rcases ih h1.2 h2.2 cname c hf with ⟨c', hc', hcid⟩
        refine ⟨c', ?_, hcid⟩
        simp only [List.find?, hbn]
        exact hc'

theorem collFrame_mem_inv {j : Nat} {l l' : List Collection} (h : CollFrame j l l') :
    ∀ c' ∈ l', ∃ c ∈ l, c.cid = c'.cid ∧ c.name = c'.name ∧
      ∀ x, x ≠ j → (x ∈ c'.objs ↔ x ∈ c.objs) := by
  intro c' hc'
  rcases List.mem_iff_get.mp hc' with ⟨⟨k, hk⟩, rfl⟩
  have hk2 : k < l.length := by rw [← h.1]; exact hk
  obtain ⟨h1, h2, h3⟩ := h.2 k hk2 hk
  exact ⟨l.get ⟨k, hk2⟩, List.get_mem l k hk2, h1.symm, h2.symm, h3⟩

theorem moveByType_ok_mem (camCid lightCid : Nat) (w : World) (i : Nat) (o : Obj)
    (hnd : (w.collections.map Collection.cid).Nodup)
    (hlook : lookupObj w i = some o) :
    ∀ c' ∈ (moveByType Oracle.ok camCid lightCid w i).collections,
      (o.type = "CAMERA" →
        ((c'.cid = camCid → i ∈ c'.objs) ∧ (c'.cid ≠ camCid → i ∉ c'.objs))) ∧
      (o.type = "LIGHT" →
        ((c'.cid = lightCid → i ∈ c'.objs) ∧ (c'.cid ≠ lightCid → i ∉ c'.objs))) := by
  have hred : moveByType Oracle.ok camCid lightCid w i =
      if o.type = "CAMERA" then move_object_exclusively_to_collection Oracle.ok w i camCid
      else if o.type = "LIGHT" then move_object_exclusively_to_collection Oracle.ok w i lightCid
      else w := by
    unfold moveByType
    simp only [hlook]
  intro c' hc'
  rw [hred] at hc'
  constructor
  · intro htyC
    rw [if_pos htyC] at hc'
    exact move_ok_mem Oracle.ok w i camCid rfl (fun _ => rfl) hnd c' hc'
  · intro htyL
    have hne : ¬ o.type = "CAMERA" := by rw [htyL]; decide
    rw [if_neg hne, if_pos htyL] at hc'
    exact move_ok_mem Oracle.ok w i lightCid rfl (fun _ => rfl) hnd c' hc'

theorem organizeFold_mem_frame (camCid lightCid x : Nat) :
    ∀ (ids : List Nat) (wst : World), x ∉ ids →
      ∀ c' ∈ (ids.foldl (moveByType Oracle.ok camCid lightCid) wst).collections,
        ∃ c ∈ wst.collections, c.cid = c'.cid ∧ (x ∈ c'.objs ↔ x ∈ c.objs) := by
  intro ids
  induction ids with
  | nil =>
    intro wst _ c' hc'
    exact ⟨c', hc', rfl, Iff.rfl⟩
  | cons j rest ih =>
    intro wst hx c' hc'
    have hxj : x ≠ j := fun hc => hx (hc ▸ List.mem_cons_self j rest)
    have hxr : x ∉ rest := fun hc => hx (List.mem_cons_of_mem j hc)
    have hfold : (j :: rest).foldl (moveByType Oracle.ok camCid lightCid) wst =
        rest.foldl (moveByType Oracle.ok camCid lightCid)
          (moveByType Oracle.ok camCid lightCid wst j) := rfl
    rw [hfold] at hc'
    rcases ih (moveByType Oracle.ok camCid lightCid wst j) hxr c' hc' with
      ⟨c1, hc1, hcid1, hiff1⟩
    rcases collFrame_mem_inv (moveByType_collFrame Oracle.ok camCid lightCid wst j) c1 hc1 with
      ⟨c, hc, hcid2, _, hiff2⟩
    exact ⟨c, hc, hcid2.trans hcid1, hiff1.trans (hiff2 x hxj)⟩

theorem organizeFold_spec (camCid lightCid : Nat) :
    ∀ (ids : List Nat) (wst : World),
      (wst.collections.map Collection.cid).Nodup → ids.Nodup →
      ((ids.foldl (moveByType Oracle.ok camCid lightCid) wst).objects = wst.objects ∧
        (ids.foldl (moveByType Oracle.ok camCid lightCid) wst).collections.map Collection.cid
          = wst.collections.map Collection.cid ∧
        (ids.foldl (moveByType Oracle.ok camCid lightCid) wst).collections.map Collection.name
          = wst.collections.map Collection.name) ∧
      (∀ i ∈ ids, ∀ o, lookupObj wst i = some o →
        ∀ c' ∈ (ids.foldl (moveByType Oracle.ok camCid lightCid) wst).collections,
          (o.type = "CAMERA" →
            ((c'.cid = camCid → i ∈ c'.objs) ∧ (c'.cid ≠ camCid → i ∉ c'.objs))) ∧
          (o.type = "LIGHT" →
            ((c'.cid = lightCid → i ∈ c'.objs) ∧ (c'.cid ≠ lightCid → i ∉ c'.objs)))) := by
  intro ids
  induction ids with
  | nil =>
    intro wst _ _
    exact ⟨⟨rfl, rfl, rfl⟩, fun i hi => absurd hi (List.not_mem_nil i)⟩
  | cons j rest ih =>
    intro wst hnd hnds
    have hns := List.nodup_cons.mp hnds
    have hfold : (j :: rest).foldl (moveByType Oracle.ok camCid lightCid) wst =
        rest.foldl (moveByType Oracle.ok camCid lightCid)
          (moveByType Oracle.ok camCid lightCid wst j) := rfl
    have hcf := moveByType_collFrame Oracle.ok camCid lightCid wst j
    have hcidmap := collFrame_map_cid hcf
    have hnamemap := collFrame_map_name hcf
    have hobj1 : (moveByType Oracle.ok camCid lightCid wst j).objects = wst.objects :=
      (moveByType_sameButCollections Oracle.ok camCid lightCid wst j).1
    have hnd1 : ((moveByType Oracle.ok camCid lightCid wst j).collections.map
        Collection.cid).Nodup := by rw [hcidmap]; exact hnd
    obtain ⟨⟨hobjR, hcidR, hnameR⟩, hmemR⟩ :=
      ih (moveByType Oracle.ok camCid lightCid wst j) hnd1 hns.2
    refine ⟨⟨?_, ?_, ?_⟩, ?_⟩
    · rw [hfold, hobjR, hobj1]
    · rw [hfold, hcidR, hcidmap]
    · rw [hfold, hnameR, hnamemap]
    · intro i hi o hlook c' hc'
      rw [hfold] at hc'
      rcases List.mem_cons.mp hi with rfl | hir
      · have hstep := moveByType_ok_mem camCid lightCid wst i o hnd hlook
        rcases organizeFold_mem_frame camCid lightCid i rest
            (moveByType Oracle.ok camCid lightCid wst i) hns.1 c' hc' with
          ⟨c1, hc1, hcid_eq, hiff⟩
        have h1 := hstep c1 hc1
        constructor
        · intro htyC
          constructor
          · intro hcidCam
            exact hiff.mpr ((h1.1 htyC).1 (hcid_eq.trans hcidCam))
          · intro hcidNe hmem
            exact (h1.1 htyC).2 (fun hc => hcidNe (hcid_eq.symm.trans hc)) (hiff.mp hmem)
        · intro htyL
          constructor
          · intro hcidL
            exact hiff.mpr ((h1.2 htyL).1 (hcid_eq.trans hcidL))
          · intro hcidNe hmem
            exact (h1.2 htyL).2 (fun hc => hcidNe (hcid_eq.symm.trans hc)) (hiff.mp hmem)
      · have hlook1 : lookupObj (moveByType Oracle.ok camCid lightCid wst j) i = some o := by
          unfold lookupObj
          rw [hobj1]
          exact hlook
        exact hmemR i hir o hlook1 c' hc'

theorem setName_map_oid (objs : List Obj) (oid : Nat) (n : String) :
    (setName objs oid n).map Obj.oid = objs.map Obj.oid := by
  unfold setName
  rw [List.map_map]
  apply List.map_congr_left
  intro o _
  by_cases h : o.oid = oid <;> simp [h]

theorem applyNames_map_oid (assigns : List (Nat × String)) :
    ∀ objs : List Obj, (applyNames objs assigns).map Obj.oid = objs.map Obj.oid := by
  induction assigns with
  | nil => intro objs; rfl
  | cons p rest ih =>
    intro objs
    show (applyNames (setName objs p.1 p.2) rest).map Obj.oid = _
    rw [ih (setName objs p.1 p.2), setName_map_oid]

theorem rename_of_type_map_oid (w : World) (t : String) :
    (rename_objects_sequentially_of_type w t).objects.map Obj.oid =
      w.objects.map Obj.oid := by
  unfold rename_objects_sequentially_of_type
  split
  · rfl
  · exact applyNames_map_oid _ w.objects

theorem renameUpdate_other (w : World) (t T : String)
    (hnd : (w.objects.map Obj.oid).Nodup)
    (o : Obj) (ho : o ∈ w.objects) (hty : o.type ≠ t) :
    renameUpdate T (sortByName (w.objects.filter (fun x => x.type == t))) o = o := by
  unfold renameUpdate
  have hnone : (assignNames T 1 (sortByName (w.objects.filter (fun x => x.type == t)))).find?
      (fun p => p.1 == o.oid) = none := by
    rw [List.find?_eq_none]
    intro q hq
    simp only [beq_iff_eq]
    intro hqo
    have hq1 : q.1 ∈ (assignNames T 1
        (sortByName (w.objects.filter (fun x => x.type == t)))).map Prod.fst :=
      List.mem_map_of_mem Prod.fst hq
    rw [assignNames_map_fst] at hq1
    have hq2 : q.1 ∈ (w.objects.filter (fun x => x.type == t)).map Obj.oid :=
      ((sortByName_perm _).map Obj.oid).mem_iff.mp hq1
    rcases List.mem_map.mp hq2 with ⟨o', ho', hoid⟩
    have ho'_obj : o' ∈ w.objects := List.mem_of_mem_filter ho'
    have ho'_ty : o'.type = t := by
      have := List.of_mem_filter ho'
      simpa using this
    have : o = o' := mem_oid_inj hnd ho ho'_obj (by rw [← hqo, hoid])
    exact hty (this ▸ ho'_ty)
  rw [hnone]

theorem rename_of_type_filter_other (w : World) (t T t' : String)
    (ht : typeNameOf t = some T) (hnd : (w.objects.map Obj.oid).Nodup) (hne : t' ≠ t) :
    (rename_objects_sequentially_of_type w t).objects.filter (fun o => o.type == t') =
      w.objects.filter (fun o => o.type == t') := by
  rw [rename_of_type_objects w t T ht hnd]
  rw [List.filter_map]
  have h1 : (w.objects.filter ((fun o => o.type == t') ∘
      renameUpdate T (sortByName (w.objects.filter (fun x => x.type == t))))) =
      w.objects.filter (fun o => o.type == t') := by
    apply List.filter_congr
    intro o _
    simp [Function.comp, renameUpdate_type]
  rw [h1]
  have h2 : ∀ o ∈ w.objects.filter (fun o => o.type == t'),
      renameUpdate T (sortByName (w.objects.filter (fun x => x.type == t))) o = o := by
    intro o ho
    have hmem : o ∈ w.objects := List.mem_of_mem_filter ho
    have hty' : o.type = t' := by
      have := List.of_mem_filter ho
      simpa using this
    exact renameUpdate_other w t T hnd o hmem (fun hc => hne ((hty'.symm.trans hc)))
  rw [List.map_congr_left h2]
  simp

theorem rename_of_type_names_perm (w : World) (t T : String) (ht : typeNameOf t = some T)
    (hnd : (w.objects.map Obj.oid).Nodup) :
    List.Perm (((rename_objects_sequentially_of_type w t).objects.filter
        (fun o => o.type == t)).map Obj.name)
      ((List.range (w.objects.filter (fun o => o.type == t)).length).map
        (fun j => T ++ " " ++ natToStr (j + 1))) := by
  rw [rename_of_type_objects w t T ht hnd, List.filter_map]
  have hcongr : (w.objects.filter ((fun o => o.type == t) ∘
      renameUpdate T (sortByName (w.objects.filter (fun x => x.type == t))))) =
      w.objects.filter (fun o => o.type == t) := by
    apply List.filter_congr
    intro o _
    simp [Function.comp, renameUpdate_type]
  rw [hcongr, List.map_map]
  have hperm : List.Perm
      ((w.objects.filter (fun o => o.type == t)).map
        (Obj.name ∘ renameUpdate T (sortByName (w.objects.filter (fun x => x.type == t)))))
      ((sortByName (w.objects.filter (fun x => x.type == t))).map
        (Obj.name ∘ renameUpdate T (sortByName (w.objects.filter (fun x => x.type == t))))) :=
    ((sortByName_perm _).map _).symm
  refine hperm.trans ?_
  have heq : (sortByName (w.objects.filter (fun x => x.type == t))).map
      (Obj.name ∘ renameUpdate T (sortByName (w.objects.filter (fun x => x.type == t)))) =
      (List.range (w.objects.filter (fun o => o.type == t)).length).map
        (fun j => T ++ " " ++ natToStr (j + 1)) := by
    apply List.ext_getElem
    · simp [(sortByName_perm (w.objects.filter (fun x => x.type == t))).length_eq]
    · intro j h1 h2
      simp only [List.getElem_map, List.getElem_range, Function.comp]
      have hj : j < (sortByName (w.objects.filter (fun x => x.type == t))).length := by
        simpa using h1
      have hfind := assignNames_find? T (sortByName (w.objects.filter (fun x => x.type == t)))
        (sortByName_oid_nodup hnd t) 1 j hj
      show Obj.name (renameUpdate T (sortByName (w.objects.filter (fun x => x.type == t)))
        ((sortByName (w.objects.filter (fun x => x.type == t))).get ⟨j, hj⟩)) = _
      unfold renameUpdate
      rw [hfind]
      show T ++ " " ++ natToStr (1 + j) = T ++ " " ++ natToStr (j + 1)
      rw [Nat.add_comm 1 j]
  rw [heq]

theorem double_find_or_create (orc : Oracle) (w : World) (hwfc : WFc w) :
    ∃ camC lightC,
      getCollection (find_or_create_collection orc (find_or_create_collection orc w
          CAMERAS_COLLECTION_NAME).2 LIGHTS_COLLECTION_NAME).2 CAMERAS_COLLECTION_NAME =
        some camC ∧
      getCollection (find_or_create_collection orc (find_or_create_collection orc w
          CAMERAS_COLLECTION_NAME).2 LIGHTS_COLLECTION_NAME).2 LIGHTS_COLLECTION_NAME =
        some lightC ∧
      camC.cid = (find_or_create_collection orc w CAMERAS_COLLECTION_NAME).1 ∧
      lightC.cid = (find_or_create_collection orc (find_or_create_collection orc w
          CAMERAS_COLLECTION_NAME).2 LIGHTS_COLLECTION_NAME).1 ∧
      camC.cid ≠ lightC.cid ∧
      WFc (find_or_create_collection orc (find_or_create_collection orc w
          CAMERAS_COLLECTION_NAME).2 LIGHTS_COLLECTION_NAME).2 := by
  set p1 := find_or_create_collection orc w CAMERAS_COLLECTION_NAME with hp1
  set p2 := find_or_create_collection orc p1.2 LIGHTS_COLLECTION_NAME with hp2
  have hwfc1 : WFc p1.2 := find_or_create_WFc orc w CAMERAS_COLLECTION_NAME hwfc
  have hwfc2 : WFc p2.2 := by
    rw [hp2]
    exact find_or_create_WFc orc p1.2 LIGHTS_COLLECTION_NAME hwfc1
  rcases find_or_create_getCollection orc w CAMERAS_COLLECTION_NAME with
    ⟨camC, hcam1, hcamcid, hcamname⟩
  have hcam2 : getCollection p2.2 CAMERAS_COLLECTION_NAME = some camC := by
    rw [hp2]
    apply getCollection_extend p1.2 _ _ camC hcam1
    rcases find_or_create_cases orc p1.2 LIGHTS_COLLECTION_NAME with
      ⟨hcol, _, _⟩ | ⟨hcol, _, _, _⟩
    · left; exact hcol
    · right; exact ⟨_, hcol⟩
  have hlight := find_or_create_getCollection orc p1.2 LIGHTS_COLLECTION_NAME
  rw [← hp2] at hlight
  rcases hlight with ⟨lightC, hlig, hligcid, hligname⟩
  refine ⟨camC, lightC, hcam2, hlig, hcamcid, hligcid, ?_, hwfc2⟩
  intro heq
  have hcm : camC ∈ p2.2.collections := List.mem_of_find?_eq_some hcam2
  have hlm : lightC ∈ p2.2.collections := List.mem_of_find?_eq_some hlig
  have hce : camC = lightC := mem_cid_inj hwfc2.1 hcm hlm heq
  rw [hce, hligname] at hcamname
  exact absurd hcamname (by decide)

theorem setName_find?_type (objs : List Obj) (k : Nat) (n : String) (i : Nat) :
    ((setName objs k n).find? (fun o => o.oid == i)).map Obj.type =
      (objs.find? (fun o => o.oid == i)).map Obj.type := by
  rw [setName_find?]
  cases objs.find? (fun o => o.oid == i) with
  | none => rfl
  | some o =>
    simp only [Option.map_some']
    by_cases h : o.oid = k <;> simp [h]

theorem applyNames_find?_type (assigns : List (Nat × String)) :
    ∀ (objs : List Obj) (i : Nat),
      ((applyNames objs assigns).find? (fun o => o.oid == i)).map Obj.type =
        (objs.find? (fun o => o.oid == i)).map Obj.type := by
  induction assigns with
  | nil => intro objs i; rfl
  | cons p rest ih =>
    intro objs i
    show (((applyNames (setName objs p.1 p.2) rest).find? (fun o => o.oid == i)).map Obj.type) = _
    rw [ih (setName objs p.1 p.2) i, setName_find?_type]

theorem rename_of_type_lookup_type (w : World) (t : String) (i : Nat) :
    (lookupObj (rename_objects_sequentially_of_type w t) i).map Obj.type =
      (lookupObj w i).map Obj.type := by
  unfold rename_objects_sequentially_of_type
  split
  · rfl
  · exact applyNames_find?_type _ w.objects i

/-- C1 (amended): after `organize_scene_objects` (host calls succeeding),
every tracked-type object is in the Cameras collection and not the Lights
collection when it is a camera, and conversely for lights; the objects of
each tracked type carry the display names "T 1" .. "T N", each exactly once
(their name multiset equals the canonical list), with the index of each
object given by its position in the stable case-insensitive alphabetical
sort of the names held before the renaming pass.  The scene is assumed
well-formed and — the amendment — to contain every tracked object of the
file: the source renames across all of `bpy.data.objects` but moves only
`scene.objects`, so a file camera outside the scene shifts the indices of
the scene's cameras and the grouping no longer carries names 1 .. N, as
the C1 counterexample shows. -/
theorem C1_organize_invariant (w : World) (hwf : w.WF)
    (hall : ∀ o ∈ w.objects, o.type ∈ TARGET_OBJECT_TYPES → o.oid ∈ w.sceneObjIds) :
    ∃ camC lightC,
      getCollection (organize_scene_objects Oracle.ok w) CAMERAS_COLLECTION_NAME = some camC ∧
      getCollection (organize_scene_objects Oracle.ok w) LIGHTS_COLLECTION_NAME = some lightC ∧
      (∀ o ∈ (organize_scene_objects Oracle.ok w).objects,
        o.type = "CAMERA" → o.oid ∈ camC.objs ∧ o.oid ∉ lightC.objs) ∧
      (∀ o ∈ (organize_scene_objects Oracle.ok w).objects,
        o.type = "LIGHT" → o.oid ∈ lightC.objs ∧ o.oid ∉ camC.objs) ∧
      (∀ (j : Nat)
          (hj : j < (sortByName (w.objects.filter (fun o => o.type == "CAMERA"))).length),
        lookupObj (organize_scene_objects Oracle.ok w)
            ((sortByName (w.objects.filter (fun o => o.type == "CAMERA"))).get ⟨j, hj⟩).oid =
          some { (sortByName (w.objects.filter (fun o => o.type == "CAMERA"))).get ⟨j, hj⟩ with
                 name := "Camera" ++ " " ++ natToStr (j + 1) }) ∧
      (∀ (j : Nat)
          (hj : j < (sortByName (w.objects.filter (fun o => o.type == "LIGHT"))).length),
        lookupObj (organize_scene_objects Oracle.ok w)
            ((sortByName (w.objects.filter (fun o => o.type == "LIGHT"))).get ⟨j, hj⟩).oid =
          some { (sortByName (w.objects.filter (fun o => o.type == "LIGHT"))).get ⟨j, hj⟩ with
                 name := "Light" ++ " " ++ natToStr (j + 1) }) ∧
      List.Perm (((organize_scene_objects Oracle.ok w).objects.filter
          (fun o => o.type == "CAMERA")).map Obj.name)
        ((List.range (w.objects.filter (fun o => o.type == "CAMERA")).length).map
          (fun j => "Camera" ++ " " ++ natToStr (j + 1))) ∧
      List.Perm (((organize_scene_objects Oracle.ok w).objects.filter
          (fun o => o.type == "LIGHT")).map Obj.name)
        ((List.range (w.objects.filter (fun o => o.type == "LIGHT")).length).map
          (fun j => "Light" ++ " " ++ natToStr (j + 1))) := by
  have hndO : (w.objects.map Obj.oid).Nodup := hwf.1
  have htc : typeNameOf "CAMERA" = some "Camera" := by decide
  have htl : typeNameOf "LIGHT" = some "Light" := by decide
  set p1 := find_or_create_collection Oracle.ok w CAMERAS_COLLECTION_NAME with hp1
  set p2 := find_or_create_collection Oracle.ok p1.2 LIGHTS_COLLECTION_NAME with hp2
  set w3 := rename_objects_sequentially_of_type p2.2 "CAMERA" with hw3
  set w4 := rename_objects_sequentially_of_type w3 "LIGHT" with hw4
  have hORG : organize_scene_objects Oracle.ok w =
      w4.sceneObjIds.foldl (moveByType Oracle.ok p1.1 p2.1) w4 := rfl
  have hfr1 := find_or_create_frame Oracle.ok w CAMERAS_COLLECTION_NAME
  rw [← hp1] at hfr1
  have hfr2 := find_or_create_frame Oracle.ok p1.2 LIGHTS_COLLECTION_NAME
  rw [← hp2] at hfr2
  have hobj2 : p2.2.objects = w.objects := hfr2.1.trans hfr1.1
  have hscene2 : p2.2.sceneObjIds = w.sceneObjIds := hfr2.2.1.trans hfr1.2.1
  have hnd2 : (p2.2.objects.map Obj.oid).Nodup := by rw [hobj2]; exact hndO
  have hw3oid : w3.objects.map Obj.oid = w.objects.map Obj.oid := by
    rw [hw3, rename_of_type_map_oid, hobj2]
  have hw4oid : w4.objects.map Obj.oid = w.objects.map Obj.oid := by
    rw [hw4, rename_of_type_map_oid]
    exact hw3oid
  have hnd3 : (w3.objects.map Obj.oid).Nodup := by rw [hw3oid]; exact hndO
  have hnd4 : (w4.objects.map Obj.oid).Nodup := by rw [hw4oid]; exact hndO
  have hcol3 : w3.collections = p2.2.collections := (rename_of_type_frame p2.2 "CAMERA").1
  have hcol4 : w4.collections = p2.2.collections :=
    ((rename_of_type_frame w3 "LIGHT").1).trans hcol3
  have hscene3 : w3.sceneObjIds = p2.2.sceneObjIds := (rename_of_type_frame p2.2 "CAMERA").2.2.1
  have hscene4 : w4.sceneObjIds = w.sceneObjIds :=
    ((rename_of_type_frame w3 "LIGHT").2.2.1).trans (hscene3.trans hscene2)
  obtain ⟨camC2, lightC2, hcamget2, hlightget2, hcamcid, hlightcid, hcidne, hwfc2⟩ :=
    double_find_or_create Oracle.ok w ⟨hwf.2.1, hwf.2.2.1⟩
  have hget4cam : getCollection w4 CAMERAS_COLLECTION_NAME = some camC2 := by
    unfold getCollection at hcamget2 ⊢
    rw [hcol4]
    exact hcamget2
  have hget4light : getCollection w4 LIGHTS_COLLECTION_NAME = some lightC2 := by
    unfold getCollection at hlightget2 ⊢
    rw [hcol4]
    exact hlightget2
  have hfold := organizeFold_spec p1.1 p2.1 w4.sceneObjIds w4
    (by rw [hcol4]; exact hwfc2.1) (by rw [hscene4]; exact hwf.2.2.2.1)
  obtain ⟨⟨hfobj, hfcid, hfname⟩, hfmem⟩ := hfold
  obtain ⟨camF, hcamF, hcamFcid⟩ :=
    getCollection_of_maps_eq hfcid hfname CAMERAS_COLLECTION_NAME camC2 hget4cam
  obtain ⟨lightF, hlightF, hlightFcid⟩ :=
    getCollection_of_maps_eq hfcid hfname LIGHTS_COLLECTION_NAME lightC2 hget4light
  have hcamFmem : camF ∈ (w4.sceneObjIds.foldl (moveByType Oracle.ok p1.1 p2.1) w4).collections :=
    List.mem_of_find?_eq_some hcamF
  have hlightFmem : lightF ∈
      (w4.sceneObjIds.foldl (moveByType Oracle.ok p1.1 p2.1) w4).collections :=
    List.mem_of_find?_eq_some hlightF
  have hcamFcid' : camF.cid = p1.1 := hcamFcid.trans hcamcid
  have hlightFcid' : lightF.cid = p2.1 := hlightFcid.trans hlightcid
  have hp1nep2 : p1.1 ≠ p2.1 := by
    intro hc
    exact hcidne ((hcamcid.trans hc).trans hlightcid.symm)
  have htype4 : ∀ i, (lookupObj w4 i).map Obj.type = (lookupObj w i).map Obj.type := by
    intro i
    rw [hw4, rename_of_type_lookup_type, hw3, rename_of_type_lookup_type]
    unfold lookupObj
    rw [hobj2]
  -- tracked objects are scene objects with the same identity
  have hsceneOf : ∀ o ∈ w4.objects, o.type ∈ TARGET_OBJECT_TYPES → o.oid ∈ w4.sceneObjIds := by
    intro o ho4 hty
    have hlk4 : lookupObj w4 o.oid = some o := lookup_mem_nodup w4.objects hnd4 ho4
    have hmap := htype4 o.oid
    rw [hlk4] at hmap
    simp only [Option.map_some'] at hmap
    rcases Option.map_eq_some'.mp hmap.symm with ⟨o0, ho0, hty0⟩
    have ho0mem : o0 ∈ w.objects := List.mem_of_find?_eq_some ho0
    have ho0oid : o0.oid = o.oid := by
      have := List.find?_some ho0
      simpa using this
    have : o0.oid ∈ w.sceneObjIds := hall o0 ho0mem (by rw [hty0]; exact hty)
    rw [hscene4, ← ho0oid]
    exact this
  have hmemC : ∀ o ∈ (w4.sceneObjIds.foldl (moveByType Oracle.ok p1.1 p2.1) w4).objects,
      o.type = "CAMERA" → o.oid ∈ camF.objs ∧ o.oid ∉ lightF.objs := by
    intro o ho htyC
    rw [hfobj] at ho
    have hin : o.oid ∈ w4.sceneObjIds :=
      hsceneOf o ho (by rw [htyC]; decide)
    have hlk4 : lookupObj w4 o.oid = some o := lookup_mem_nodup w4.objects hnd4 ho
    have h1 := (hfmem o.oid hin o hlk4 camF hcamFmem).1 htyC
    have h2 := (hfmem o.oid hin o hlk4 lightF hlightFmem).1 htyC
    exact ⟨h1.1 hcamFcid', h2.2 (by rw [hlightFcid']; exact fun hc => hp1nep2 hc.symm)⟩
  have hmemL : ∀ o ∈ (w4.sceneObjIds.foldl (moveByType Oracle.ok p1.1 p2.1) w4).objects,
      o.type = "LIGHT" → o.oid ∈ lightF.objs ∧ o.oid ∉ camF.objs := by
    intro o ho htyL
    rw [hfobj] at ho
    have hin : o.oid ∈ w4.sceneObjIds :=
      hsceneOf o ho (by rw [htyL]; decide)
    have hlk4 : lookupObj w4 o.oid = some o := lookup_mem_nodup w4.objects hnd4 ho
    have h1 := (hfmem o.oid hin o hlk4 lightF hlightFmem).2 htyL
    have h2 := (hfmem o.oid hin o hlk4 camF hcamFmem).2 htyL
    exact ⟨h1.1 hlightFcid', h2.2 (by rw [hcamFcid']; exact hp1nep2)⟩
  -- positional names for cameras, in w4
  have hsortC : sortByName (p2.2.objects.filter (fun o => o.type == "CAMERA")) =
      sortByName (w.objects.filter (fun o => o.type == "CAMERA")) := by rw [hobj2]
  have hposC3 := rename_of_type_get p2.2 "CAMERA" "Camera" htc hnd2
  rw [hsortC] at hposC3
  have hposC4 : ∀ (j : Nat)
      (hj : j < (sortByName (w.objects.filter (fun o => o.type == "CAMERA"))).length),
      lookupObj w4
          ((sortByName (w.objects.filter (fun o => o.type == "CAMERA"))).get ⟨j, hj⟩).oid =
        some { (sortByName (w.objects.filter (fun o => o.type == "CAMERA"))).get ⟨j, hj⟩ with
               name := "Camera" ++ " " ++ natToStr (j + 1) } := by
    intro j hj
    have h3 := hposC3 j hj
    have hmem3 : ({ (sortByName (w.objects.filter (fun o => o.type == "CAMERA"))).get ⟨j, hj⟩
        with name := "Camera" ++ " " ++ natToStr (j + 1) } : Obj) ∈ w3.objects := by
      unfold lookupObj at h3
      exact List.mem_of_find?_eq_some h3
    have htym : ((sortByName (w.objects.filter (fun o => o.type == "CAMERA"))).get
        ⟨j, hj⟩).type = "CAMERA" := by
      have hmemS : (sortByName (w.objects.filter (fun o => o.type == "CAMERA"))).get ⟨j, hj⟩ ∈
          w.objects.filter (fun o => o.type == "CAMERA") :=
        (sortByName_perm _).mem_iff.mp (List.get_mem _ j hj)
      have := List.of_mem_filter hmemS
      simpa using this
    have htyne : ({ (sortByName (w.objects.filter (fun o => o.type == "CAMERA"))).get
        ⟨j, hj⟩ with name := "Camera" ++ " " ++ natToStr (j + 1) } : Obj).type ≠ "LIGHT" := by
      show ((sortByName (w.objects.filter (fun o => o.type == "CAMERA"))).get
        ⟨j, hj⟩).type ≠ "LIGHT"
      rw [htym]
      decide
    exact rename_of_type_other w3 "LIGHT" "Light" htl hnd3 _ hmem3 htyne
  -- positional names for lights, in w4
  have hfil3 : w3.objects.filter (fun o => o.type == "LIGHT") =
      w.objects.filter (fun o => o.type == "LIGHT") := by
    rw [hw3, rename_of_type_filter_other p2.2 "CAMERA" "Camera" "LIGHT" htc hnd2 (by decide),
      hobj2]
  have hposL4 := rename_of_type_get w3 "LIGHT" "Light" htl hnd3
  rw [show sortByName (w3.objects.filter (fun o => o.type == "LIGHT")) =
      sortByName (w.objects.filter (fun o => o.type == "LIGHT")) from by rw [hfil3]] at hposL4
  -- name multisets
  have hfil4cam : w4.objects.filter (fun o => o.type == "CAMERA") =
      w3.objects.filter (fun o => o.type == "CAMERA") := by
    rw [hw4]
    exact rename_of_type_filter_other w3 "LIGHT" "Light" "CAMERA" htl hnd3 (by decide)
  have hpermC := rename_of_type_names_perm p2.2 "CAMERA" "Camera" htc hnd2
  rw [hobj2] at hpermC
  have hpermL := rename_of_type_names_perm w3 "LIGHT" "Light" htl hnd3
  rw [hfil3] at hpermL
  refine ⟨camF, lightF, ?_, ?_, ?_, ?_, ?_, ?_, ?_, ?_⟩
  · rw [hORG]
    unfold getCollection
    exact hcamF
  · rw [hORG]
    unfold getCollection
    exact hlightF
  · rw [hORG]
    exact hmemC
  · rw [hORG]
    exact hmemL
  · intro j hj
    rw [hORG]
    have : lookupObj (w4.sceneObjIds.foldl (moveByType Oracle.ok p1.1 p2.1) w4)
        ((sortByName (w.objects.filter (fun o => o.type == "CAMERA"))).get ⟨j, hj⟩).oid =
        lookupObj w4
          ((sortByName (w.objects.filter (fun o => o.type == "CAMERA"))).get ⟨j, hj⟩).oid := by
      unfold lookupObj
      rw [hfobj]
    rw [this]
    exact hposC4 j hj
  · intro j hj
    rw [hORG]
    have : lookupObj (w4.sceneObjIds.foldl (moveByType Oracle.ok p1.1 p2.1) w4)
        ((sortByName (w.objects.filter (fun o => o.type == "LIGHT"))).get ⟨j, hj⟩).oid =
        lookupObj w4
          ((sortByName (w.objects.filter (fun o => o.type == "LIGHT"))).get ⟨j, hj⟩).oid := by
      unfold lookupObj
      rw [hfobj]
    rw [this]
    exact hposL4 j hj
  · rw [hORG, hfobj, hfil4cam]
    exact hpermC
  · rw [hORG, hfobj]
    exact hpermL

theorem C1_witness :
    wA.WF ∧
    (∀ o ∈ wA.objects, o.type ∈ TARGET_OBJECT_TYPES → o.oid ∈ wA.sceneObjIds) ∧
    (∃ camC lightC,
      getCollection (organize_scene_objects Oracle.ok wA) CAMERAS_COLLECTION_NAME = some camC ∧
      getCollection (organize_scene_objects Oracle.ok wA) LIGHTS_COLLECTION_NAME = some lightC ∧
      (∀ o ∈ (organize_scene_objects Oracle.ok wA).objects,
        o.type = "CAMERA" → o.oid ∈ camC.objs ∧ o.oid ∉ lightC.objs) ∧
      (∀ o ∈ (organize_scene_objects Oracle.ok wA).objects,
        o.type = "LIGHT" → o.oid ∈ lightC.objs ∧ o.oid ∉ camC.objs) ∧
      (∀ (j : Nat)
          (hj : j < (sortByName (wA.objects.filter (fun o => o.type == "CAMERA"))).length),
        lookupObj (organize_scene_objects Oracle.ok wA)
            ((sortByName (wA.objects.filter (fun o => o.type == "CAMERA"))).get ⟨j, hj⟩).oid =
          some { (sortByName (wA.objects.filter (fun o => o.type == "CAMERA"))).get ⟨j, hj⟩ with
                 name := "Camera" ++ " " ++ natToStr (j + 1) }) ∧
      (∀ (j : Nat)
          (hj : j < (sortByName (wA.objects.filter (fun o => o.type == "LIGHT"))).length),
        lookupObj (organize_scene_objects Oracle.ok wA)
            ((sortByName (wA.objects.filter (fun o => o.type == "LIGHT"))).get ⟨j, hj⟩).oid =
          some { (sortByName (wA.objects.filter (fun o => o.type == "LIGHT"))).get ⟨j, hj⟩ with
                 name := "Light" ++ " " ++ natToStr (j + 1) }) ∧
      List.Perm (((organize_scene_objects Oracle.ok wA).objects.filter
          (fun o => o.type == "CAMERA")).map Obj.name)
        ((List.range (wA.objects.filter (fun o => o.type == "CAMERA")).length).map
          (fun j => "Camera" ++ " " ++ natToStr (j + 1))) ∧
      List.Perm (((organize_scene_objects Oracle.ok wA).objects.filter
          (fun o => o.type == "LIGHT")).map Obj.name)
        ((List.range (wA.objects.filter (fun o => o.type == "LIGHT")).length).map
          (fun j => "Light" ++ " " ++ natToStr (j + 1)))) :=
  ⟨by decide, by decide, C1_organize_invariant wA (by decide) (by decide)⟩

/-! ### Second-run analysis: idempotence bounds (claim C2) -/

theorem lexLe_refl : ∀ xs : List Nat, lexLe xs xs = true := by
  intro xs
  induction xs with
  | nil => rfl
  | cons a as ih => simp [lexLe, ih]

theorem foldl_id_of_fixed {α β : Type} (f : β → α → β) :
    ∀ (l : List α) (b : β), (∀ a ∈ l, f b a = b) → l.foldl f b = b := by
  intro l
  induction l with
  | nil => intro b _; rfl
  | cons x rest ih =>
    intro b hfix
    simp only [List.foldl_cons]
    rw [hfix x (List.mem_cons_self x rest)]
    exact ih b (fun a ha => hfix a (List.mem_cons_of_mem x ha))

theorem perm_eq_of_key_eq {α β : Type} [DecidableEq α] (key : α → β) :
    ∀ (L M : List α), List.Perm L M → L.map key = M.map key → (M.map key).Nodup → L = M := by
  intro L
  induction L with
  | nil =>
    intro M hperm _ _
    exact hperm.nil_eq
  | cons a L' ih =>
    intro M hperm hkey hnd
    cases M with
    | nil => exact absurd hperm.length_eq (by simp)
    | cons b M' =>
      simp only [List.map_cons, List.cons.injEq] at hkey
      have hab : a = b := by
        have hamem : a ∈ b :: M' := hperm.subset (List.mem_cons_self a L')
        rcases List.mem_cons.mp hamem with h | h
        · exact h
        · exfalso
          have : key a ∈ M'.map key := List.mem_map_of_mem key h
          rw [hkey.1] at this
          exact (List.nodup_cons.mp hnd).1 this
      subst hab
      have hperm' : List.Perm L' M' := hperm.cons_inv
      rw [ih M' hperm' hkey.2 (List.nodup_cons.mp hnd).2]


theorem rename_of_type_id (w : World) (t T : String) (ht : typeNameOf t = some T)
    (hnd : (w.objects.map Obj.oid).Nodup)
    (hN : (w.objects.filter (fun o => o.type == t)).length ≤ 9)
    (hkeys9 : ∀ j, j < 9 → ∀ i, i < j →
      lexLe (nameKey (T ++ " " ++ natToStr (i + 1)))
          (nameKey (T ++ " " ++ natToStr (j + 1))) = true ∧
        lexLe (nameKey (T ++ " " ++ natToStr (j + 1)))
          (nameKey (T ++ " " ++ natToStr (i + 1))) = false)
    (hperm : List.Perm ((w.objects.filter (fun o => o.type == t)).map Obj.name)
      ((List.range (w.objects.filter (fun o => o.type == t)).length).map
        (fun j => T ++ " " ++ natToStr (j + 1)))) :
    rename_objects_sequentially_of_type w t = w := by
  have hsperm := sortByName_perm (w.objects.filter (fun o => o.type == t))
  have hslen : (sortByName (w.objects.filter (fun o => o.type == t))).length =
      (w.objects.filter (fun o => o.type == t)).length := hsperm.length_eq
  have hLperm : List.Perm
      ((sortByName (w.objects.filter (fun o => o.type == t))).map Obj.name)
      ((List.range (w.objects.filter (fun o => o.type == t)).length).map
        (fun j => T ++ " " ++ natToStr (j + 1))) :=
    (hsperm.map Obj.name).trans hperm
  have hKsorted : List.Pairwise (fun a b : List Nat => lexLe a b = true)
      (((sortByName (w.objects.filter (fun o => o.type == t))).map Obj.name).map nameKey) := by
    rw [List.map_map]
    exact List.Pairwise.map _ (fun a b hab => hab)
      (sortByName_sorted (w.objects.filter (fun o => o.type == t)))
  have hKcpair : List.Pairwise
      (fun a b : List Nat => lexLe a b = true ∧ lexLe b a = false)
      ((((List.range (w.objects.filter (fun o => o.type == t)).length).map
        (fun j => T ++ " " ++ natToStr (j + 1)))).map nameKey) := by
    rw [List.pairwise_iff_getElem]
    intro i j hi hj hij
    simp only [List.length_map, List.length_range] at hi hj
    simp only [List.getElem_map, List.getElem_range]
    exact hkeys9 j (by omega) i hij
  have hKcsorted : List.Pairwise (fun a b : List Nat => lexLe a b = true)
      ((((List.range (w.objects.filter (fun o => o.type == t)).length).map
        (fun j => T ++ " " ++ natToStr (j + 1)))).map nameKey) :=
    hKcpair.imp (fun h => h.1)
  have hKcnodup : ((((List.range (w.objects.filter (fun o => o.type == t)).length).map
      (fun j => T ++ " " ++ natToStr (j + 1)))).map nameKey).Nodup :=
    hKcpair.imp (fun h heq => by rw [heq] at h; rw [lexLe_refl] at h; exact absurd h.2 (by simp))
  have hKperm : List.Perm
      (((sortByName (w.objects.filter (fun o => o.type == t))).map Obj.name).map nameKey)
      ((((List.range (w.objects.filter (fun o => o.type == t)).length).map
        (fun j => T ++ " " ++ natToStr (j + 1)))).map nameKey) := hLperm.map nameKey
  haveI : IsAntisymm (List Nat) (fun a b => lexLe a b = true) :=
    ⟨fun a b h1 h2 => lexLe_antisymm a b h1 h2⟩
  have hKeq := List.eq_of_perm_of_sorted hKperm hKsorted hKcsorted
  have hLeq : (sortByName (w.objects.filter (fun o => o.type == t))).map Obj.name =
      ((List.range (w.objects.filter (fun o => o.type == t)).length).map
        (fun j => T ++ " " ++ natToStr (j + 1))) :=
    perm_eq_of_key_eq nameKey _ _ hLperm hKeq hKcnodup
  have hname : ∀ (j : Nat)
      (hj : j < (sortByName (w.objects.filter (fun o => o.type == t))).length),
      ((sortByName (w.objects.filter (fun o => o.type == t))).get ⟨j, hj⟩).name =
        T ++ " " ++ natToStr (j + 1) := by
    intro j hj
    have h1 := List.getElem_of_eq hLeq (show j <
      ((sortByName (w.objects.filter (fun o => o.type == t))).map Obj.name).length by
        simpa using hj)
    simp only [List.getElem_map, List.getElem_range] at h1
    simpa using h1
  have hkeysnodup : ((assignNames T 1
      (sortByName (w.objects.filter (fun o => o.type == t)))).map Prod.fst).Nodup := by
    rw [assignNames_map_fst]
    exact sortByName_oid_nodup hnd t
  have happ : applyNames w.objects (assignNames T 1
      (sortByName (w.objects.filter (fun o => o.type == t)))) = w.objects := by
    rw [applyNames_eq_map _ _ hkeysnodup]
    have hfix : ∀ o ∈ w.objects,
        (match (assignNames T 1 (sortByName (w.objects.filter
          (fun o => o.type == t)))).find? (fun p => p.1 == o.oid) with
        | some p => { o with name := p.2 }
        | none => o) = o := by
      intro o ho
      cases hfind : (assignNames T 1 (sortByName (w.objects.filter
          (fun o => o.type == t)))).find? (fun p => p.1 == o.oid) with
      | none => rfl
      | some p =>
        have hp1 : p.1 = o.oid := by simpa using List.find?_some hfind
        have hpmem := List.mem_of_find?_eq_some hfind
        have hp1mem : p.1 ∈ (sortByName (w.objects.filter
            (fun o => o.type == t))).map Obj.oid := by
          rw [← assignNames_map_fst T 1]
          exact List.mem_map_of_mem Prod.fst hpmem
        rcases List.mem_map.mp hp1mem with ⟨o', ho', hoid'⟩
        have ho'w : o' ∈ w.objects :=
          List.mem_of_mem_filter (hsperm.mem_iff.mp ho')
        have hoo' : o = o' := mem_oid_inj hnd ho ho'w (by rw [← hp1, hoid'])
        rcases List.mem_iff_get.mp ho' with ⟨⟨j, hj⟩, hget⟩
        have hfind2 := assignNames_find? T _ (sortByName_oid_nodup hnd t) 1 j hj
        rw [hget] at hfind2
        have hpred : (fun p : Nat × String => p.1 == o'.oid) =
            (fun p : Nat × String => p.1 == o.oid) := by rw [hoo']
        rw [hpred] at hfind2
        rw [hfind2] at hfind
        have hpval : p = (o'.oid, T ++ " " ++ natToStr (1 + j)) :=
          (Option.some_injective _ hfind).symm
        have hnm : o.name = T ++ " " ++ natToStr (j + 1) := by
          rw [hoo', ← hget]
          exact hname j hj
        rw [hpval]
        show ({ o with name := T ++ " " ++ natToStr (1 + j) } : Obj) = o
        rw [Nat.add_comm 1 j, ← hnm]
    rw [List.map_congr_left hfix]
    exact List.map_id w.objects
  unfold rename_objects_sequentially_of_type
  rw [ht]
  show { w with objects := applyNames w.objects _ } = w
  rw [happ]

theorem find_cid_of_maps_eq :
    ∀ {l l' : List Collection}, l'.map Collection.cid = l.map Collection.cid →
      l'.map Collection.name = l.map Collection.name →
      ∀ (i : Nat) (c : Collection), l.find? (fun x => x.cid == i) = some c →
        ∃ c', l'.find? (fun x => x.cid == i) = some c' ∧ c'.name = c.name := by
  intro l
  induction l with
  | nil =>
    intro l' h1 h2 i c hf
    cases hf
  | cons a rest ih =>
    intro l' h1 h2 i c hf
    cases l' with
    | nil => exact absurd h1 (by simp)
    | cons b rest' =>
      simp only [List.map_cons, List.cons.injEq] at h1 h2
      by_cases hn : a.cid = i
      · have hbeq : (a.cid == i) = true := beq_iff_eq.mpr hn
        simp only [List.find?, hbeq] at hf
        have hc : c = a := (Option.some_injective _ hf).symm
        have hbn : (b.cid == i) = true := beq_iff_eq.mpr (h1.1.trans hn)
        refine ⟨b, ?_, by rw [h2.1, hc]⟩
        simp only [List.find?, hbn]
      · have hbeq : (a.cid == i) = false := beq_eq_false_iff_ne.mpr hn
        simp only [List.find?, hbeq] at hf
        have hbn : (b.cid == i) = false :=
          beq_eq_false_iff_ne.mpr (fun hc => hn (h1.1.symm.trans hc))
        rcases ih h1.2 h2.2 i c hf with ⟨c', hc', hname⟩
        refine ⟨c', ?_, hname⟩
        simp only [List.find?, hbn]
        exact hc'

theorem find_cid_mem_nodup (cols : List Collection)
    (hnd : (cols.map Collection.cid).Nodup) {c : Collection} (hc : c ∈ cols) :
    cols.find? (fun x => x.cid == c.cid) = some c := by
  induction cols with
  | nil => cases hc
  | cons a rest ih =>
    rcases List.mem_cons.mp hc with rfl | hmem
    · simp [List.find?]
    · have hne : a.cid ≠ c.cid := by
        intro he
        have : a.cid ∈ rest.map Collection.cid :=
          he ▸ List.mem_map_of_mem Collection.cid hmem
        exact (List.nodup_cons.mp hnd).1 this
      have hstep : (a.cid == c.cid) = false := beq_eq_false_iff_ne.mpr hne
      simp only [List.find?, hstep]
      exact ih (List.nodup_cons.mp hnd).2 hmem

theorem caught_linkChild_ok (v : World) (cid : Nat) :
    caught v (attemptLinkChild Oracle.ok v cid) =
      { v with rootChildren := v.rootChildren ++ [cid] } := rfl

theorem find_or_create_root_entry (w : World) (cname : String) (hwfc : WFc w) :
    ∃ rc ∈ (find_or_create_collection Oracle.ok w cname).2.rootChildren,
      ∃ d, (find_or_create_collection Oracle.ok w cname).2.collections.find?
          (fun x => x.cid == rc) = some d ∧ d.name = cname := by
  cases hf : w.collections.find? (fun x => x.name == cname) with
  | some c =>
    simp only [find_or_create_collection, hf]
    split
    · rename_i hcontains
      have hmem : cname ∈ w.rootChildren.filterMap (fun i =>
          (w.collections.find? (fun x => x.cid == i)).map (fun x => x.name)) := by
        simpa using hcontains
      rcases List.mem_filterMap.mp hmem with ⟨rc, hrc, hmap⟩
      rcases Option.map_eq_some'.mp hmap with ⟨d, hd, hdname⟩
      exact ⟨rc, hrc, d, hd, hdname⟩
    · rw [caught_linkChild_ok]
      refine ⟨c.cid, by simp, c, ?_, by simpa using List.find?_some hf⟩
      show w.collections.find? (fun x => x.cid == c.cid) = some c
      exact find_cid_mem_nodup w.collections hwfc.1 (List.mem_of_find?_eq_some hf)
  | none =>
    simp only [find_or_create_collection, hf]
    split
    · rename_i hcontains
      have hmem : cname ∈ w.rootChildren.filterMap (fun i =>
          ((w.collections ++ [(⟨w.nextCid, cname, []⟩ : Collection)]).find?
            (fun x => x.cid == i)).map (fun x => x.name)) := by
        simpa using hcontains
      rcases List.mem_filterMap.mp hmem with ⟨rc, hrc, hmap⟩
      rcases Option.map_eq_some'.mp hmap with ⟨d, hd, hdname⟩
      exact ⟨rc, hrc, d, hd, hdname⟩
    · rw [caught_linkChild_ok]
      refine ⟨w.nextCid, by simp, ⟨w.nextCid, cname, []⟩, ?_, rfl⟩
      show (w.collections ++ [(⟨w.nextCid, cname, []⟩ : Collection)]).find?
        (fun x => x.cid == w.nextCid) = some ⟨w.nextCid, cname, []⟩
      rw [List.find?_append]
      have hnone : w.collections.find? (fun x => x.cid == w.nextCid) = none := by
        rw [List.find?_eq_none]
        intro d hd
        simp only [beq_iff_eq]
        exact Nat.ne_of_lt (hwfc.2 d hd)
      rw [hnone]
      simp [List.find?]

theorem find_or_create_id (orc : Oracle) (w : World) (cname : String) (c : Collection)
    (hfound : w.collections.find? (fun x => x.name == cname) = some c)
    (hchild : ((w.rootChildren.filterMap (fun i =>
      (w.collections.find? (fun x => x.cid == i)).map (fun x => x.name))).contains cname)
      = true) :
    find_or_create_collection orc w cname = (c.cid, w) := by
  simp only [find_or_create_collection, hfound]
  rw [if_pos hchild]

theorem find_or_create_rootChildren_extend (orc : Oracle) (w : World) (cname : String) :
    ∃ tail, (find_or_create_collection orc w cname).2.rootChildren =
      w.rootChildren ++ tail := by
  have hgen : ∀ (v : World) (cid : Nat), ∃ tail,
      (caught v (attemptLinkChild orc v cid)).rootChildren = v.rootChildren ++ tail := by
    intro v cid
    unfold attemptLinkChild
    by_cases h : orc.childLinkFails cid
    · rw [if_pos h]
      exact ⟨[], by simp [caught]⟩
    · rw [if_neg h]
      exact ⟨[cid], rfl⟩
  cases hf : w.collections.find? (fun x => x.name == cname) with
  | some c =>
    simp only [find_or_create_collection, hf]
    split
    · exact ⟨[], by simp⟩
    · exact hgen w c.cid
  | none =>
    simp only [find_or_create_collection, hf]
    split
    · exact ⟨[], by simp⟩
    · exact hgen _ w.nextCid

theorem organizeFold_sameBut (orc : Oracle) (camCid lightCid : Nat) :
    ∀ (ids : List Nat) (wst : World),
      SameButCollections wst (ids.foldl (moveByType orc camCid lightCid) wst) := by
  intro ids
  induction ids with
  | nil => intro wst; exact sameButCollections_refl wst
  | cons j rest ih =>
    intro wst
    exact sameButCollections_trans (moveByType_sameButCollections orc camCid lightCid wst j)
      (ih (moveByType orc camCid lightCid wst j))

theorem organize_post_spec (w : World) (hwf : w.WF) :
    (organize_scene_objects Oracle.ok w).objects.map Obj.oid = w.objects.map Obj.oid ∧
    (organize_scene_objects Oracle.ok w).sceneObjIds = w.sceneObjIds ∧
    (∃ camC', getCollection (organize_scene_objects Oracle.ok w) CAMERAS_COLLECTION_NAME =
        some camC' ∧
      camC'.cid = (find_or_create_collection Oracle.ok w CAMERAS_COLLECTION_NAME).1) ∧
    (∃ lightC', getCollection (organize_scene_objects Oracle.ok w) LIGHTS_COLLECTION_NAME =
        some lightC' ∧
      lightC'.cid = (find_or_create_collection Oracle.ok
        (find_or_create_collection Oracle.ok w CAMERAS_COLLECTION_NAME).2
        LIGHTS_COLLECTION_NAME).1) ∧
    (∃ rc ∈ (organize_scene_objects Oracle.ok w).rootChildren, ∃ d,
      (organize_scene_objects Oracle.ok w).collections.find? (fun x => x.cid == rc) =
        some d ∧ d.name = CAMERAS_COLLECTION_NAME) ∧
    (∃ rc ∈ (organize_scene_objects Oracle.ok w).rootChildren, ∃ d,
      (organize_scene_objects Oracle.ok w).collections.find? (fun x => x.cid == rc) =
        some d ∧ d.name = LIGHTS_COLLECTION_NAME) ∧
    (∀ i ∈ w.sceneObjIds, ∀ o, lookupObj (organize_scene_objects Oracle.ok w) i = some o →
      (o.type = "CAMERA" → ∀ c' ∈ (organize_scene_objects Oracle.ok w).collections,
        (c'.cid = (find_or_create_collection Oracle.ok w CAMERAS_COLLECTION_NAME).1 →
          i ∈ c'.objs) ∧
        (c'.cid ≠ (find_or_create_collection Oracle.ok w CAMERAS_COLLECTION_NAME).1 →
          i ∉ c'.objs)) ∧
      (o.type = "LIGHT" → ∀ c' ∈ (organize_scene_objects Oracle.ok w).collections,
        (c'.cid = (find_or_create_collection Oracle.ok
            (find_or_create_collection Oracle.ok w CAMERAS_COLLECTION_NAME).2
            LIGHTS_COLLECTION_NAME).1 → i ∈ c'.objs) ∧
        (c'.cid ≠ (find_or_create_collection Oracle.ok
            (find_or_create_collection Oracle.ok w CAMERAS_COLLECTION_NAME).2
            LIGHTS_COLLECTION_NAME).1 → i ∉ c'.objs))) ∧
    List.Perm (((organize_scene_objects Oracle.ok w).objects.filter
        (fun o => o.type == "CAMERA")).map Obj.name)
      ((List.range (w.objects.filter (fun o => o.type == "CAMERA")).length).map
        (fun j => "Camera" ++ " " ++ natToStr (j + 1))) ∧
    List.Perm (((organize_scene_objects Oracle.ok w).objects.filter
        (fun o => o.type == "LIGHT")).map Obj.name)
      ((List.range (w.objects.filter (fun o => o.type == "LIGHT")).length).map
        (fun j => "Light" ++ " " ++ natToStr (j + 1))) := by
  have hndO : (w.objects.map Obj.oid).Nodup := hwf.1
  have htc : typeNameOf "CAMERA" = some "Camera" := by decide
  have htl : typeNameOf "LIGHT" = some "Light" := by decide
  set p1 := find_or_create_collection Oracle.ok w CAMERAS_COLLECTION_NAME with hp1
  set p2 := find_or_create_collection Oracle.ok p1.2 LIGHTS_COLLECTION_NAME with hp2
  set w3 := rename_objects_sequentially_of_type p2.2 "CAMERA" with hw3
  set w4 := rename_objects_sequentially_of_type w3 "LIGHT" with hw4
  have hORG : organize_scene_objects Oracle.ok w =
      w4.sceneObjIds.foldl (moveByType Oracle.ok p1.1 p2.1) w4 := rfl
  have hfr1 := find_or_create_frame Oracle.ok w CAMERAS_COLLECTION_NAME
  rw [← hp1] at hfr1
  have hfr2 := find_or_create_frame Oracle.ok p1.2 LIGHTS_COLLECTION_NAME
  rw [← hp2] at hfr2
  have hobj2 : p2.2.objects = w.objects := hfr2.1.trans hfr1.1
  have hscene2 : p2.2.sceneObjIds = w.sceneObjIds := hfr2.2.1.trans hfr1.2.1
  have hnd2 : (p2.2.objects.map Obj.oid).Nodup := by rw [hobj2]; exact hndO
  have hw3oid : w3.objects.map Obj.oid = w.objects.map Obj.oid := by
    rw [hw3, rename_of_type_map_oid, hobj2]
  have hw4oid : w4.objects.map Obj.oid = w.objects.map Obj.oid := by
    rw [hw4, rename_of_type_map_oid]
    exact hw3oid
  have hnd3 : (w3.objects.map Obj.oid).Nodup := by rw [hw3oid]; exact hndO
  have hcol3 : w3.collections = p2.2.collections := (rename_of_type_frame p2.2 "CAMERA").1
  have hcol4 : w4.collections = p2.2.collections :=
    ((rename_of_type_frame w3 "LIGHT").1).trans hcol3
  have hroot3 : w3.rootChildren = p2.2.rootChildren := (rename_of_type_frame p2.2 "CAMERA").2.1
  have hroot4 : w4.rootChildren = p2.2.rootChildren :=
    ((rename_of_type_frame w3 "LIGHT").2.1).trans hroot3
  have hscene3 : w3.sceneObjIds = p2.2.sceneObjIds := (rename_of_type_frame p2.2 "CAMERA").2.2.1
  have hscene4 : w4.sceneObjIds = w.sceneObjIds :=
    ((rename_of_type_frame w3 "LIGHT").2.2.1).trans (hscene3.trans hscene2)
  obtain ⟨camC2, lightC2, hcamget2, hlightget2, hcamcid, hlightcid, hcidne, hwfc2⟩ :=
    double_find_or_create Oracle.ok w ⟨hwf.2.1, hwf.2.2.1⟩
  have hget4cam : getCollection w4 CAMERAS_COLLECTION_NAME = some camC2 := by
    unfold getCollection at hcamget2 ⊢
    rw [hcol4]
    exact hcamget2
  have hget4light : getCollection w4 LIGHTS_COLLECTION_NAME = some lightC2 := by
    unfold getCollection at hlightget2 ⊢
    rw [hcol4]
    exact hlightget2
  have hfold := organizeFold_spec p1.1 p2.1 w4.sceneObjIds w4
    (by rw [hcol4]; exact hwfc2.1) (by rw [hscene4]; exact hwf.2.2.2.1)
  obtain ⟨⟨hfobj, hfcid, hfname⟩, hfmem⟩ := hfold
  have hsameb := organizeFold_sameBut Oracle.ok p1.1 p2.1 w4.sceneObjIds w4
  refine ⟨?_, ?_, ?_, ?_, ?_, ?_, ?_, ?_, ?_⟩
  · rw [hORG, hfobj]
    exact hw4oid
  · rw [hORG, hsameb.2.2.1]
    exact hscene4
  · obtain ⟨camF, hcamF, hcamFcid⟩ :=
      getCollection_of_maps_eq hfcid hfname CAMERAS_COLLECTION_NAME camC2 hget4cam
    exact ⟨camF, by rw [hORG]; exact hcamF, hcamFcid.trans hcamcid⟩
  · obtain ⟨lightF, hlightF, hlightFcid⟩ :=
      getCollection_of_maps_eq hfcid hfname LIGHTS_COLLECTION_NAME lightC2 hget4light
    exact ⟨lightF, by rw [hORG]; exact hlightF, hlightFcid.trans hlightcid⟩
  · obtain ⟨rc, hrc, d, hd, hdname⟩ :=
      find_or_create_root_entry w CAMERAS_COLLECTION_NAME ⟨hwf.2.1, hwf.2.2.1⟩
    rw [← hp1] at hrc hd
    have hrc2 : rc ∈ p2.2.rootChildren := by
      obtain ⟨tail, htail⟩ := find_or_create_rootChildren_extend Oracle.ok p1.2
        LIGHTS_COLLECTION_NAME
      rw [← hp2] at htail
      rw [htail]
      exact List.mem_append_left tail hrc
    have hd2 : p2.2.collections.find? (fun x => x.cid == rc) = some d := by
      rcases find_or_create_cases Oracle.ok p1.2 LIGHTS_COLLECTION_NAME with
        ⟨hcol, _, _⟩ | ⟨hcol, _, _, _⟩
      · rw [← hp2] at hcol
        rw [hcol]
        exact hd
      · rw [← hp2] at hcol
        rw [hcol, List.find?_append, hd]
        rfl
    obtain ⟨d', hd', hd'name⟩ := find_cid_of_maps_eq hfcid hfname rc d (by
      rw [hcol4]; exact hd2)
    refine ⟨rc, ?_, d', by rw [hORG]; exact hd', hd'name.trans hdname⟩
    rw [hORG, hsameb.2.1, hroot4]
    exact hrc2
  · have hwfc1 : WFc p1.2 := by
      rw [hp1]
      exact find_or_create_WFc Oracle.ok w CAMERAS_COLLECTION_NAME ⟨hwf.2.1, hwf.2.2.1⟩
    obtain ⟨rc, hrc, d, hd, hdname⟩ :=
      find_or_create_root_entry p1.2 LIGHTS_COLLECTION_NAME hwfc1
    rw [← hp2] at hrc hd
    obtain ⟨d', hd', hd'name⟩ := find_cid_of_maps_eq hfcid hfname rc d (by
      rw [hcol4]; exact hd)
    refine ⟨rc, ?_, d', by rw [hORG]; exact hd', hd'name.trans hdname⟩
    rw [hORG, hsameb.2.1, hroot4]
    exact hrc
  · intro i hi o hlk
    have hi4 : i ∈ w4.sceneObjIds := by rw [hscene4]; exact hi
    have hlk4 : lookupObj w4 i = some o := by
      unfold lookupObj at hlk ⊢
      rw [hORG, hfobj] at hlk
      exact hlk
    constructor
    · intro htyC c' hc'
      rw [hORG] at hc'
      exact (hfmem i hi4 o hlk4 c' hc').1 htyC
    · intro htyL c' hc'
      rw [hORG] at hc'
      exact (hfmem i hi4 o hlk4 c' hc').2 htyL
  · have hfil4cam : w4.objects.filter (fun o => o.type == "CAMERA") =
        w3.objects.filter (fun o => o.type == "CAMERA") := by
      rw [hw4]
      exact rename_of_type_filter_other w3 "LIGHT" "Light" "CAMERA" htl hnd3 (by decide)
    have hpermC := rename_of_type_names_perm p2.2 "CAMERA" "Camera" htc hnd2
    rw [hobj2] at hpermC
    rw [hORG, hfobj, hfil4cam]
    exact hpermC
  · have hfil3 : w3.objects.filter (fun o => o.type == "LIGHT") =
        w.objects.filter (fun o => o.type == "LIGHT") := by
      rw [hw3, rename_of_type_filter_other p2.2 "CAMERA" "Camera" "LIGHT" htc hnd2 (by decide),
        hobj2]
    have hpermL := rename_of_type_names_perm w3 "LIGHT" "Light" htl hnd3
    rw [hfil3] at hpermL
    rw [hORG, hfobj]
    exact hpermL

def mkCam (i : Nat) : Obj := ⟨i, "CAMERA", "c" ++ natToStr i⟩

def w10 : World :=
  ⟨[mkCam 0, mkCam 1, mkCam 2, mkCam 3, mkCam 4, mkCam 5, mkCam 6, mkCam 7,
      mkCam 8, mkCam 9],
    [], [], [], [], true, 0⟩

/-- Counterexample to claim C2 as stated: with ten cameras, the first run of
organize_scene_objects names them "Camera 1" .. "Camera 10", and the second
run re-sorts those names with "Camera 10" before "Camera 2" (case-insensitive
lexicographic order on strings), so the second run changes object names. -/
theorem C2_not_idempotent_counterexample :
    (organize_scene_objects Oracle.ok (organize_scene_objects Oracle.ok w10)).objects ≠
      (organize_scene_objects Oracle.ok w10).objects := by decide

theorem camera_keys9 : ∀ j, j < 9 → ∀ i, i < j →
    lexLe (nameKey ("Camera" ++ " " ++ natToStr (i + 1)))
        (nameKey ("Camera" ++ " " ++ natToStr (j + 1))) = true ∧
      lexLe (nameKey ("Camera" ++ " " ++ natToStr (j + 1)))
        (nameKey ("Camera" ++ " " ++ natToStr (i + 1))) = false := by decide

theorem light_keys9 : ∀ j, j < 9 → ∀ i, i < j →
    lexLe (nameKey ("Light" ++ " " ++ natToStr (i + 1)))
        (nameKey ("Light" ++ " " ++ natToStr (j + 1))) = true ∧
      lexLe (nameKey ("Light" ++ " " ++ natToStr (j + 1)))
        (nameKey ("Light" ++ " " ++ natToStr (i + 1))) = false := by decide

/-- C2 (amended): organize_scene_objects is idempotent on well-formed scenes
with at most nine cameras and at most nine lights; the second run changes no
object name and no collection membership (indeed it changes nothing at all).
The bound is needed: with ten or more objects of a type, the second run
re-sorts "{TypeName} 10" before "{TypeName} 2" and reshuffles the names, as
the counterexample shows. -/
theorem C2_organize_idempotent_bounded (w : World) (hwf : w.WF)
    (hcam9 : (w.objects.filter (fun o => o.type == "CAMERA")).length ≤ 9)
    (hlight9 : (w.objects.filter (fun o => o.type == "LIGHT")).length ≤ 9) :
    organize_scene_objects Oracle.ok (organize_scene_objects Oracle.ok w) =
      organize_scene_objects Oracle.ok w := by
  obtain ⟨hoid, hscene, ⟨camC', hcamget, hcamcid⟩, ⟨lightC', hlightget, hlightcid⟩,
    hrootCam, hrootLight, hdich, hpermC, hpermL⟩ := organize_post_spec w hwf
  set w' := organize_scene_objects Oracle.ok w with hw'
  have hnd' : (w'.objects.map Obj.oid).Nodup := by rw [hoid]; exact hwf.1
  have hlenC : (w'.objects.filter (fun o => o.type == "CAMERA")).length =
      (w.objects.filter (fun o => o.type == "CAMERA")).length := by
    have h := hpermC.length_eq
    simpa using h
  have hlenL : (w'.objects.filter (fun o => o.type == "LIGHT")).length =
      (w.objects.filter (fun o => o.type == "LIGHT")).length := by
    have h := hpermL.length_eq
    simpa using h
  have hfoundC : w'.collections.find? (fun x => x.name == CAMERAS_COLLECTION_NAME) =
      some camC' := hcamget
  have hfoundL : w'.collections.find? (fun x => x.name == LIGHTS_COLLECTION_NAME) =
      some lightC' := hlightget
  have hchildC : ((w'.rootChildren.filterMap (fun i =>
      (w'.collections.find? (fun x => x.cid == i)).map (fun x => x.name))).contains
        CAMERAS_COLLECTION_NAME) = true := by
    rcases hrootCam with ⟨rc, hrc, d, hd, hdname⟩
    have hmem : CAMERAS_COLLECTION_NAME ∈ w'.rootChildren.filterMap (fun i =>
        (w'.collections.find? (fun x => x.cid == i)).map (fun x => x.name)) :=
      List.mem_filterMap.mpr ⟨rc, hrc, by rw [hd, Option.map_some', hdname]⟩
    simpa using hmem
  have hchildL : ((w'.rootChildren.filterMap (fun i =>
      (w'.collections.find? (fun x => x.cid == i)).map (fun x => x.name))).contains
        LIGHTS_COLLECTION_NAME) = true := by
    rcases hrootLight with ⟨rc, hrc, d, hd, hdname⟩
    have hmem : LIGHTS_COLLECTION_NAME ∈ w'.rootChildren.filterMap (fun i =>
        (w'.collections.find? (fun x => x.cid == i)).map (fun x => x.name)) :=
      List.mem_filterMap.mpr ⟨rc, hrc, by rw [hd, Option.map_some', hdname]⟩
    simpa using hmem
  have hfidC : find_or_create_collection Oracle.ok w' CAMERAS_COLLECTION_NAME =
      (camC'.cid, w') :=
    find_or_create_id Oracle.ok w' CAMERAS_COLLECTION_NAME camC' hfoundC hchildC
  have hfidL : find_or_create_collection Oracle.ok w' LIGHTS_COLLECTION_NAME =
      (lightC'.cid, w') :=
    find_or_create_id Oracle.ok w' LIGHTS_COLLECTION_NAME lightC' hfoundL hchildL
  have e1 : (find_or_create_collection Oracle.ok w' CAMERAS_COLLECTION_NAME).2 = w' := by
    rw [hfidC]
  have e1c : (find_or_create_collection Oracle.ok w' CAMERAS_COLLECTION_NAME).1 =
      camC'.cid := by
    rw [hfidC]
  have e2 : (find_or_create_collection Oracle.ok
      (find_or_create_collection Oracle.ok w' CAMERAS_COLLECTION_NAME).2
      LIGHTS_COLLECTION_NAME).2 = w' := by
    rw [e1, hfidL]
  have e2c : (find_or_create_collection Oracle.ok
      (find_or_create_collection Oracle.ok w' CAMERAS_COLLECTION_NAME).2
      LIGHTS_COLLECTION_NAME).1 = lightC'.cid := by
    rw [e1, hfidL]
  have hrC : rename_objects_sequentially_of_type w' "CAMERA" = w' :=
    rename_of_type_id w' "CAMERA" "Camera" (by decide) hnd'
      (by rw [hlenC]; exact hcam9) camera_keys9 (by rw [hlenC]; exact hpermC)
  have hrL : rename_objects_sequentially_of_type w' "LIGHT" = w' :=
    rename_of_type_id w' "LIGHT" "Light" (by decide) hnd'
      (by rw [hlenL]; exact hlight9) light_keys9 (by rw [hlenL]; exact hpermL)
  have hORG2 : organize_scene_objects Oracle.ok w' =
      (rename_objects_sequentially_of_type (rename_objects_sequentially_of_type
          (find_or_create_collection Oracle.ok
            (find_or_create_collection Oracle.ok w' CAMERAS_COLLECTION_NAME).2
            LIGHTS_COLLECTION_NAME).2 "CAMERA") "LIGHT").sceneObjIds.foldl
        (moveByType Oracle.ok
          (find_or_create_collection Oracle.ok w' CAMERAS_COLLECTION_NAME).1
          (find_or_create_collection Oracle.ok
            (find_or_create_collection Oracle.ok w' CAMERAS_COLLECTION_NAME).2
            LIGHTS_COLLECTION_NAME).1)
        (rename_objects_sequentially_of_type (rename_objects_sequentially_of_type
          (find_or_create_collection Oracle.ok
            (find_or_create_collection Oracle.ok w' CAMERAS_COLLECTION_NAME).2
            LIGHTS_COLLECTION_NAME).2 "CAMERA") "LIGHT") := rfl
  rw [hORG2, e2, hrC, hrL, e1c, e2c]
  apply foldl_id_of_fixed
  intro i hi
  have hiw : i ∈ w.sceneObjIds := by rw [hscene] at hi; exact hi
  cases hlk : lookupObj w' i with
  | none => simp [moveByType, hlk]
  | some o =>
    have hd := hdich i hiw o hlk
    by_cases htyC : o.type = "CAMERA"
    · have hmv : moveByType Oracle.ok camC'.cid lightC'.cid w' i =
          move_object_exclusively_to_collection Oracle.ok w' i camC'.cid := by
        simp [moveByType, hlk, htyC]
      rw [hmv]
      apply move_id
      · have hcmem : camC' ∈ w'.collections := List.mem_of_find?_eq_some hfoundC
        have hin : i ∈ camC'.objs := (hd.1 htyC camC' hcmem).1 hcamcid
        exact (mem_usersCids w' i camC'.cid).mpr ⟨camC', hcmem, rfl, hin⟩
      · intro c hc hmemi
        by_cases hcc : c.cid =
            (find_or_create_collection Oracle.ok w CAMERAS_COLLECTION_NAME).1
        · rw [hcc, ← hcamcid]
        · exact absurd hmemi ((hd.1 htyC c hc).2 hcc)
    · by_cases htyL : o.type = "LIGHT"
      · have hmv : moveByType Oracle.ok camC'.cid lightC'.cid w' i =
            move_object_exclusively_to_collection Oracle.ok w' i lightC'.cid := by
          simp [moveByType, hlk, htyC, htyL]
        rw [hmv]
        apply move_id
        · have hcmem : lightC' ∈ w'.collections := List.mem_of_find?_eq_some hfoundL
          have hin : i ∈ lightC'.objs := (hd.2 htyL lightC' hcmem).1 hlightcid
          exact (mem_usersCids w' i lightC'.cid).mpr ⟨lightC', hcmem, rfl, hin⟩
        · intro c hc hmemi
          by_cases hcc : c.cid = (find_or_create_collection Oracle.ok
              (find_or_create_collection Oracle.ok w CAMERAS_COLLECTION_NAME).2
              LIGHTS_COLLECTION_NAME).1
          · rw [hcc, ← hlightcid]
          · exact absurd hmemi ((hd.2 htyL c hc).2 hcc)
      · simp [moveByType, hlk, htyC, htyL]

/-- Witness for C2: the concrete scene wA (two cameras, one light, one mesh)
is well formed, within the bounds, and a second organize run is a no-op. -/
theorem C2_witness :
    wA.WF ∧ (wA.objects.filter (fun o => o.type == "CAMERA")).length ≤ 9 ∧
      (wA.objects.filter (fun o => o.type == "LIGHT")).length ≤ 9 ∧
      organize_scene_objects Oracle.ok (organize_scene_objects Oracle.ok wA) =
        organize_scene_objects Oracle.ok wA :=
  ⟨by decide, by decide, by decide,
    C2_organize_idempotent_bounded wA (by decide) (by decide) (by decide)⟩

def wC : World :=
  ⟨[⟨1, "CAMERA", "a"⟩, ⟨2, "CAMERA", "b"⟩], [], [], [2], [], true, 0⟩

/-- Counterexample to claim C1 as stated: the claim quantifies over any
scene, but in the well-formed world wC — file cameras "a" (oid 1, not in
the scene) and "b" (oid 2, the only scene object) — `organize_scene_objects`
renames across all file objects while moving only scene objects, so the
Cameras grouping ends up holding exactly one object (N = 1) whose display
name is "Camera 2", not "Camera 1" through "Camera N". -/
theorem C1_counterexample :
    wC.WF ∧
      (getCollection (organize_scene_objects Oracle.ok wC)
        CAMERAS_COLLECTION_NAME).map Collection.objs = some [2] ∧
      (lookupObj (organize_scene_objects Oracle.ok wC) 2).map Obj.name =
        some "Camera 2" ∧
      (lookupObj (organize_scene_objects Oracle.ok wC) 2).map Obj.name ≠
        some "Camera 1" := by decide
